import Mathlib

/-!
Deadline Cloud job-preset details customization: the property availability policy.

A shallow embedding of `DeadlineCloudJobPresetDetailsCustomization.cpp`.

* `FName` is the engine's name type.  The code only compares names for equality
  (`TSet::Contains`, `TSet::Add`, `TMap::Find`), so it is a type parameter with
  decidable equality.
* A `UMoviePipelineDeadlineCloudExecutorJob*` is an `Option JobPtr`: `none` is the
  null pointer, `some j` the address of a live job whose state is looked up in a
  `JobHeap`.
* The lambdas that the code binds to widgets capture `this`; they are kept as data
  (one constructor per lambda of the source) and run against the current state of
  the captured handler.  A lambda that dereferences `Job` without a null check
  returns `none` when `Job` is null.
* `DeadlinePluginTest_CreateJobTest.cpp`: the command `WaitForJobCreationLogCommand` is a
  registered log device, so what is logged while one of its methods runs reaches its
  `Serialize` inside that call.  Clock readings are `Float`s, the engine's `double`.
-/

namespace DeadlineCloud

/-- Address of a live `UMoviePipelineDeadlineCloudExecutorJob` object. -/
abbrev JobPtr := Nat

/-- Modelled from the spec: the class `UMoviePipelineDeadlineCloudExecutorJob`
(`MovieRenderPipeline/MoviePipelineDeadlineCloudExecutorJob.h`) is not among the
sources.  The spec gives a Job a per-field override-enabled flag, read by
`get_override_enabled(field_path)` and written by
`set_override_enabled(field_path, bool)`. -/
structure UMoviePipelineDeadlineCloudExecutorJob (FName : Type) where
  OverrideEnabled : FName → Bool

/-- Modelled from the spec: `get_override_enabled(field_path) -> bool`, the Job's own
per-field override-enabled state. -/
def UMoviePipelineDeadlineCloudExecutorJob.IsPropertyRowEnabledInMovieRenderJob
    {FName : Type} (J : UMoviePipelineDeadlineCloudExecutorJob FName)
    (InPropertyPath : FName) : Bool :=
  J.OverrideEnabled InPropertyPath

/-- Modelled from the spec: `set_override_enabled(field_path, bool)` writes the
override-enabled flag for `field_path` on the Job. -/
def UMoviePipelineDeadlineCloudExecutorJob.SetPropertyRowEnabledInMovieRenderJob
    {FName : Type} [DecidableEq FName] (J : UMoviePipelineDeadlineCloudExecutorJob FName)
    (InPropertyPath : FName) (bEnabled : Bool) : UMoviePipelineDeadlineCloudExecutorJob FName :=
  { OverrideEnabled := fun q => if q = InPropertyPath then bEnabled else J.OverrideEnabled q }

/-- The job objects that are alive, by address. -/
abbrev JobHeap (FName : Type) := JobPtr → UMoviePipelineDeadlineCloudExecutorJob FName

/-- An object returned by `IPropertyHandle::GetOuterObjects`: a stale or null entry,
a job, or an object of another class. -/
inductive UObject where
  | Invalid
  | Job (j : JobPtr)
  | Other
  deriving DecidableEq, Repr

/-- What the code reads from an `IPropertyHandle`: the property's path name, its
`FName`, its name as a string, its `Category` metadata if any, and the outer
objects. -/
structure IPropertyHandle (FName : Type) where
  PathName : FName
  PropertyFName : FName
  Name : String
  Category : Option FName
  OuterObjects : List UObject

/-- The class `FPropertyAvailabilityHandler`: the job pointer and the set of property
paths disabled in the data asset. -/
structure FPropertyAvailabilityHandler (FName : Type) where
  Job : Option JobPtr
  PropertiesDisabledInDataAsset : Finset FName

/-- The constructor `FPropertyAvailabilityHandler::FPropertyAvailabilityHandler(InJob)`
with its initialiser `Job(InJob)`; the set member is default-constructed, so it starts
empty.  (Named `Construct`: a member named like its structure would shadow the name
of the structure.) -/
def FPropertyAvailabilityHandler.Construct {FName : Type}
    (InJob : Option JobPtr) : FPropertyAvailabilityHandler FName :=
  { Job := InJob, PropertiesDisabledInDataAsset := ∅ }

/-- The static `FPropertyAvailabilityHandler::GetOuterJob`: null when there is no outer
object or the first one is invalid, else the cast of the first one to a job. -/
def FPropertyAvailabilityHandler.GetOuterJob {FName : Type}
    (StructHandle : IPropertyHandle FName) : Option JobPtr :=
  match StructHandle.OuterObjects with
  | [] => none
  | UObject.Invalid :: _ => none
  | UObject.Job j :: _ => some j
  | UObject.Other :: _ => none

/-- The method `IsPropertyRowEnabledInMovieRenderJob`:
`return Job && Job->IsPropertyRowEnabledInMovieRenderJob(InPropertyPath);`. -/
def FPropertyAvailabilityHandler.IsPropertyRowEnabledInMovieRenderJob {FName : Type}
    (this : FPropertyAvailabilityHandler FName) (Heap : JobHeap FName)
    (InPropertyPath : FName) : Bool :=
  match this.Job with
  | none => false
  | some j => (Heap j).IsPropertyRowEnabledInMovieRenderJob InPropertyPath

/-- The method `IsPropertyRowEnabledInDataAsset`: false when the set contains the
path, true otherwise. -/
def FPropertyAvailabilityHandler.IsPropertyRowEnabledInDataAsset {FName : Type}
    [DecidableEq FName] (this : FPropertyAvailabilityHandler FName)
    (InPropertyPath : FName) : Bool :=
  if InPropertyPath ∈ this.PropertiesDisabledInDataAsset then false else true

/-- The three states of a check box. -/
inductive ECheckBoxState where
  | Unchecked
  | Checked
  | Undetermined
  deriving DecidableEq, Repr

/-- The lambdas of the source that return `bool`, each with the values it captures by
copy.  The captured `this` is supplied when the lambda runs. -/
inductive FIsEnabledLambda (FName : Type) where
  /-- In `CustomizeHeader`, job branch:
  `this->PropertyOverrideHandler->IsPropertyRowEnabledInMovieRenderJob(PropertyPath)`. -/
  | HeaderMovieRenderJob (PropertyPath : FName)
  /-- In `CustomizeHeader`, else branch:
  `this->PropertyOverrideHandler->IsPropertyRowEnabledInDataAsset(PropertyPath)`. -/
  | HeaderDataAsset (PropertyPath : FName)
  /-- In `EnableInMovieRenderQueue`, the attribute given to `ValueWidget->SetEnabled`:
  `Job->IsPropertyRowEnabledInMovieRenderJob(PropertyPath)`, no null check. -/
  | RowMovieRenderJob (PropertyPath : FName)
  deriving DecidableEq

/-- Runs a `bool` lambda against the handler reached through its captured `this`.
`none` is a null-pointer dereference. -/
def FIsEnabledLambda.Execute {FName : Type} [DecidableEq FName]
    (L : FIsEnabledLambda FName) (this : FPropertyAvailabilityHandler FName)
    (Heap : JobHeap FName) : Option Bool :=
  match L with
  | HeaderMovieRenderJob PropertyPath =>
      some (this.IsPropertyRowEnabledInMovieRenderJob Heap PropertyPath)
  | HeaderDataAsset PropertyPath =>
      some (this.IsPropertyRowEnabledInDataAsset PropertyPath)
  | RowMovieRenderJob PropertyPath =>
      match this.Job with
      | none => none
      | some j => some ((Heap j).IsPropertyRowEnabledInMovieRenderJob PropertyPath)

/-- The `SCheckBox` that `EnableInMovieRenderQueue` puts in front of the name widget;
both of its lambdas capture `this` and `PropertyPath`. -/
structure SCheckBox (FName : Type) where
  PropertyPath : FName
  deriving DecidableEq

/-- The `IsChecked_Lambda` of the check box:
`Job->IsPropertyRowEnabledInMovieRenderJob(PropertyPath) ? Checked : Unchecked`. -/
def SCheckBox.IsChecked {FName : Type} (Box : SCheckBox FName)
    (this : FPropertyAvailabilityHandler FName) (Heap : JobHeap FName) :
    Option ECheckBoxState :=
  match this.Job with
  | none => none
  | some j =>
      some (if (Heap j).IsPropertyRowEnabledInMovieRenderJob Box.PropertyPath
        then ECheckBoxState.Checked else ECheckBoxState.Unchecked)

/-- The `OnCheckStateChanged_Lambda` of the check box:
`Job->SetPropertyRowEnabledInMovieRenderJob(PropertyPath, NewState == Checked)`, no null
check.  Returns the heap after the write. -/
def SCheckBox.OnCheckStateChanged {FName : Type} [DecidableEq FName] (Box : SCheckBox FName)
    (this : FPropertyAvailabilityHandler FName) (Heap : JobHeap FName)
    (NewState : ECheckBoxState) : Option (JobHeap FName) :=
  match this.Job with
  | none => none
  | some j =>
      some (fun k =>
        if k = j then
          (Heap j).SetPropertyRowEnabledInMovieRenderJob Box.PropertyPath
            (decide (NewState = ECheckBoxState.Checked))
        else Heap k)

/-- What the code sets on an `IDetailPropertyRow`: the handle it shows, the lambda given to
`SetEnabled` of its value widget, whether `CustomWidget(true)` replaced the layout, the
check box of the custom name content, and the handle whose value drives `Visibility`.
An absent value means the code has set nothing. -/
structure IDetailPropertyRow (FName : Type) where
  PropertyHandle : IPropertyHandle FName
  ValueWidgetEnabled : Option (FIsEnabledLambda FName)
  bCustomWidget : Bool
  NameContentCheckBox : Option (SCheckBox FName)
  VisibilityFrom : Option (IPropertyHandle FName)

/-- The row that `IDetailChildrenBuilder::AddProperty` and `IDetailGroup::AddPropertyRow`
return for a handle, before the code customizes it. -/
def IDetailPropertyRow.Default {FName : Type} (Handle : IPropertyHandle FName) :
    IDetailPropertyRow FName :=
  { PropertyHandle := Handle, ValueWidgetEnabled := none, bCustomWidget := false,
    NameContentCheckBox := none, VisibilityFrom := none }

/-- The method `DisableRowInDataAsset`: adds the path name of the row's property to the
set. -/
def FPropertyAvailabilityHandler.DisableRowInDataAsset {FName : Type} [DecidableEq FName]
    (this : FPropertyAvailabilityHandler FName) (PropertyRow : IDetailPropertyRow FName) :
    FPropertyAvailabilityHandler FName :=
  { this with
    PropertiesDisabledInDataAsset :=
      insert PropertyRow.PropertyHandle.PathName this.PropertiesDisabledInDataAsset }

/-- The const method `EnableInMovieRenderQueue`: returns at once without a job; otherwise
gives the value widget its enabled attribute and replaces the name content by a check
box followed by the name widget.  The result is the row after the call. -/
def FPropertyAvailabilityHandler.EnableInMovieRenderQueue {FName : Type}
    (this : FPropertyAvailabilityHandler FName) (PropertyRow : IDetailPropertyRow FName) :
    IDetailPropertyRow FName :=
  match this.Job with
  | none => PropertyRow
  | some _ =>
      { PropertyRow with
        ValueWidgetEnabled :=
          some (FIsEnabledLambda.RowMovieRenderJob PropertyRow.PropertyHandle.PathName)
        bCustomWidget := true
        NameContentCheckBox := some { PropertyPath := PropertyRow.PropertyHandle.PathName } }

/-- The widget toolkit's side of a row's value widget: a widget whose enabled attribute
was never set is enabled (the default the code itself falls back to when `OnIsEnabled`
is unbound), otherwise the bound lambda decides. -/
def IDetailPropertyRow.IsValueWidgetEnabled {FName : Type} [DecidableEq FName]
    (Row : IDetailPropertyRow FName) (Handler : FPropertyAvailabilityHandler FName)
    (Heap : JobHeap FName) : Option Bool :=
  match Row.ValueWidgetEnabled with
  | none => some true
  | some L => L.Execute Handler Heap

/-- The widget toolkit's side of a check-box click on a row: a row without a check box
has nothing to click, otherwise the check box's `OnCheckStateChanged` lambda runs. -/
def IDetailPropertyRow.OnCheckStateChanged {FName : Type} [DecidableEq FName]
    (Row : IDetailPropertyRow FName) (Handler : FPropertyAvailabilityHandler FName)
    (Heap : JobHeap FName) (NewState : ECheckBoxState) : Option (JobHeap FName) :=
  match Row.NameContentCheckBox with
  | none => some Heap
  | some Box => Box.OnCheckStateChanged Handler Heap NewState

/-- The class `FDeadlineCloudAttachmentArrayBuilder`, reduced to its `OnIsEnabled`
delegate (`none` is unbound). -/
structure FDeadlineCloudAttachmentArrayBuilder (FName : Type) where
  OnIsEnabled : Option (FIsEnabledLambda FName)

/-- The static `FDeadlineCloudAttachmentArrayBuilder::MakeInstance`: a builder whose
`OnIsEnabled` is not bound yet. -/
def FDeadlineCloudAttachmentArrayBuilder.MakeInstance {FName : Type} :
    FDeadlineCloudAttachmentArrayBuilder FName :=
  { OnIsEnabled := none }

/-- The lambda that `GenerateWrapperStructHeaderRowContent` gives to `NodeRow.IsEnabled`
and `OnGenerateEntry` gives to the element's value widget:
`if (OnIsEnabled.IsBound()) return OnIsEnabled.Execute(); return true;`. -/
def FDeadlineCloudAttachmentArrayBuilder.IsEnabled {FName : Type} [DecidableEq FName]
    (this : FDeadlineCloudAttachmentArrayBuilder FName)
    (Handler : FPropertyAvailabilityHandler FName) (Heap : JobHeap FName) : Option Bool :=
  match this.OnIsEnabled with
  | some L => L.Execute Handler Heap
  | none => some true

/-- The members of `FDeadlineCloudAttachmentArrayCustomization`. -/
structure FDeadlineCloudAttachmentArrayCustomization (FName : Type) where
  PropertyOverrideHandler : FPropertyAvailabilityHandler FName
  ArrayBuilder : FDeadlineCloudAttachmentArrayBuilder FName

/-- The method `FDeadlineCloudAttachmentArrayCustomization::CustomizeHeader`: makes a new
handler over the outer job, makes the array builder and binds `OnIsEnabled` to the job
query when `GetOuterJob` of the handle is non-null, to the data-asset query otherwise.
The result is the customization's members after the call (the `Paths` child handle is
taken to exist). -/
def FDeadlineCloudAttachmentArrayCustomization.CustomizeHeader {FName : Type}
    (InPropertyHandle : IPropertyHandle FName) :
    FDeadlineCloudAttachmentArrayCustomization FName :=
  let OuterJob := FPropertyAvailabilityHandler.GetOuterJob InPropertyHandle
  let PropertyOverrideHandler : FPropertyAvailabilityHandler FName :=
    FPropertyAvailabilityHandler.Construct OuterJob
  let PropertyPath := InPropertyHandle.PathName
  let ArrayBuilder : FDeadlineCloudAttachmentArrayBuilder FName :=
    FDeadlineCloudAttachmentArrayBuilder.MakeInstance
  match FPropertyAvailabilityHandler.GetOuterJob InPropertyHandle with
  | some _ =>
      { PropertyOverrideHandler := PropertyOverrideHandler
        ArrayBuilder :=
          { ArrayBuilder with
            OnIsEnabled := some (FIsEnabledLambda.HeaderMovieRenderJob PropertyPath) } }
  | none =>
      { PropertyOverrideHandler := PropertyOverrideHandler
        ArrayBuilder :=
          { ArrayBuilder with
            OnIsEnabled := some (FIsEnabledLambda.HeaderDataAsset PropertyPath) } }

/-- The enabled state of the header row that `CustomizeHeader` generates, as the toolkit
evaluates it on a redraw. -/
def FDeadlineCloudAttachmentArrayCustomization.IsHeaderEnabled {FName : Type}
    [DecidableEq FName] (this : FDeadlineCloudAttachmentArrayCustomization FName)
    (Heap : JobHeap FName) : Option Bool :=
  this.ArrayBuilder.IsEnabled this.PropertyOverrideHandler Heap

/-- State of `FDeadlineCloudAttachmentDetailsCustomization` after `CustomizeChildren`:
its handler member, the three rows it added to the child builder, and the job on which
`UpdateAttachmentFields` was called, if any. -/
structure FDeadlineCloudAttachmentDetailsCustomization (FName : Type) where
  PropertyOverrideHandler : FPropertyAvailabilityHandler FName
  ShowAutoDetectedRow : IDetailPropertyRow FName
  PathsRow : IDetailPropertyRow FName
  AutoDetectedPathsRow : IDetailPropertyRow FName
  UpdateAttachmentFieldsOn : Option JobPtr

/-- The method `FDeadlineCloudAttachmentDetailsCustomization::CustomizeChildren`, given
the struct handle and its child handles 0, 1 and 2. -/
def FDeadlineCloudAttachmentDetailsCustomization.CustomizeChildren {FName : Type}
    [DecidableEq FName] (StructHandle : IPropertyHandle FName)
    (ShowAutoDetectedHandle PathsHandle AutoDetectedPathsHandle : IPropertyHandle FName) :
    FDeadlineCloudAttachmentDetailsCustomization FName :=
  let ShowAutoDetectedRow := IDetailPropertyRow.Default ShowAutoDetectedHandle
  let PathsRow := IDetailPropertyRow.Default PathsHandle
  let AutoDetectedPathsRow := IDetailPropertyRow.Default AutoDetectedPathsHandle
  let OuterJob := FPropertyAvailabilityHandler.GetOuterJob StructHandle
  let PropertyOverrideHandler : FPropertyAvailabilityHandler FName :=
    FPropertyAvailabilityHandler.Construct OuterJob
  match OuterJob with
  | some j =>
      { PropertyOverrideHandler := PropertyOverrideHandler
        ShowAutoDetectedRow := ShowAutoDetectedRow
        PathsRow := PropertyOverrideHandler.EnableInMovieRenderQueue PathsRow
        AutoDetectedPathsRow :=
          { AutoDetectedPathsRow with VisibilityFrom := some ShowAutoDetectedHandle }
        UpdateAttachmentFieldsOn := if StructHandle.Name = "InputFiles" then some j else none }
  | none =>
      { PropertyOverrideHandler :=
          PropertyOverrideHandler.DisableRowInDataAsset AutoDetectedPathsRow
        ShowAutoDetectedRow := ShowAutoDetectedRow
        PathsRow := PathsRow
        AutoDetectedPathsRow := AutoDetectedPathsRow
        UpdateAttachmentFieldsOn := none }

/-- The derived display rule as the specification words it: a field's edit
control is enabled if and only if (the policy is in job-override mode and
`is_enabled_in_job` is true) or (the policy is in template mode and
`is_enabled_in_template` is true). -/
def DerivedDisplayRule {FName : Type} [DecidableEq FName]
    (Policy : FPropertyAvailabilityHandler FName) (Heap : JobHeap FName)
    (FieldPath : FName) : Bool :=
  (Policy.Job.isSome && Policy.IsPropertyRowEnabledInMovieRenderJob Heap FieldPath)
    || (Policy.Job.isNone && Policy.IsPropertyRowEnabledInDataAsset FieldPath)

/-- An `IDetailGroup` added by `IDetailChildrenBuilder::AddGroup`: its name and whether
`ToggleExpansion(true)` was called on it. -/
structure IDetailGroup (FName : Type) where
  GroupName : FName
  bExpanded : Bool

/-- The ways `FDeadlineCloudJobPresetDetailsCustomization::CustomizeChildren` can stop
early: a call through a null `GroupToUse`, or a failed `FindChecked`. -/
inductive EFault where
  | NullGroupDereference
  | FindCheckedFailed
  deriving DecidableEq, Repr

/-- State of `FDeadlineCloudJobPresetDetailsCustomization::CustomizeChildren`: the groups
of the child builder (a group pointer is an index into `Groups`), the property rows in
the order they were added with the group each was added to, and the local map
`CreatedCategories`. -/
structure FChildBuilderState (FName : Type) where
  Groups : List (IDetailGroup FName)
  PropertyRows : List (Nat × IDetailPropertyRow FName)
  CreatedCategories : List (FName × Nat)

/-- The method `IsPropertyHiddenInMovieRenderQueue`: `return false;`. -/
def FDeadlineCloudJobPresetDetailsCustomization.IsPropertyHiddenInMovieRenderQueue
    {FName : Type} (_InPropertyPath : FName) : Bool :=
  false

/-- The method `CustomizeStructChildrenInAssetDetails`: a custom widget made of the default
name and value widgets; no enabled attribute is set. -/
def FDeadlineCloudJobPresetDetailsCustomization.CustomizeStructChildrenInAssetDetails
    {FName : Type} (PropertyRow : IDetailPropertyRow FName) : IDetailPropertyRow FName :=
  { PropertyRow with bCustomWidget := true }

/-- The method `CustomizeStructChildrenInMovieRenderQueue`:
`PropertyOverrideHandler->EnableInMovieRenderQueue(PropertyRow)`. -/
def FDeadlineCloudJobPresetDetailsCustomization.CustomizeStructChildrenInMovieRenderQueue
    {FName : Type} (PropertyOverrideHandler : FPropertyAvailabilityHandler FName)
    (PropertyRow : IDetailPropertyRow FName) : IDetailPropertyRow FName :=
  PropertyOverrideHandler.EnableInMovieRenderQueue PropertyRow

/-- Lines 53-75 of `CustomizeChildren`: the group chosen for a child, with the state after
a possible `AddGroup`.  `GroupToUse` stays null when the child has no `Category`
metadata. -/
def FDeadlineCloudJobPresetDetailsCustomization.SelectGroup {FName : Type}
    [DecidableEq FName] (OuterJob : Option JobPtr) (StructName : FName)
    (ChildHandle : IPropertyHandle FName) (S : FChildBuilderState FName) :
    Except EFault (Option Nat × FChildBuilderState FName) :=
  match ChildHandle.Category with
  | none => Except.ok (none, S)
  | some PropertyCategoryName =>
      match S.CreatedCategories.lookup PropertyCategoryName with
      | some FoundCategory => Except.ok (some FoundCategory, S)
      | none =>
          match OuterJob with
          | some _ =>
              match S.CreatedCategories.lookup StructName with
              | some BaseGroup => Except.ok (some BaseGroup, S)
              | none => Except.error EFault.FindCheckedFailed
          | none =>
              let NewGroup := S.Groups.length
              Except.ok (some NewGroup,
                { S with
                  Groups := S.Groups ++ [{ GroupName := StructName, bExpanded := true }]
                  CreatedCategories :=
                    (PropertyCategoryName, NewGroup) ::
                      S.CreatedCategories.filter (fun kv => decide (kv.1 ≠ PropertyCategoryName)) })

/-- One pass of the loop body of `CustomizeChildren` (lines 45-86) for `ChildHandle`. -/
def FDeadlineCloudJobPresetDetailsCustomization.LoopBody {FName : Type}
    [DecidableEq FName] (OuterJob : Option JobPtr)
    (PropertyOverrideHandler : FPropertyAvailabilityHandler FName) (StructName : FName)
    (ChildHandle : IPropertyHandle FName) (S : FChildBuilderState FName) :
    Except EFault (FChildBuilderState FName) :=
  if OuterJob.isSome &&
      FDeadlineCloudJobPresetDetailsCustomization.IsPropertyHiddenInMovieRenderQueue
        ChildHandle.PathName then
    Except.ok S
  else
    match FDeadlineCloudJobPresetDetailsCustomization.SelectGroup OuterJob StructName
        ChildHandle S with
    | Except.error e => Except.error e
    | Except.ok (none, _) => Except.error EFault.NullGroupDereference
    | Except.ok (some GroupToUse, S1) =>
        let PropertyRow := IDetailPropertyRow.Default ChildHandle
        let Customized :=
          match OuterJob with
          | some _ =>
              FDeadlineCloudJobPresetDetailsCustomization.CustomizeStructChildrenInMovieRenderQueue
                PropertyOverrideHandler PropertyRow
          | none =>
              FDeadlineCloudJobPresetDetailsCustomization.CustomizeStructChildrenInAssetDetails
                PropertyRow
        Except.ok { S1 with PropertyRows := S1.PropertyRows ++ [(GroupToUse, Customized)] }

/-- The `for` loop of `CustomizeChildren` over the child handles in index order; it
stops at the first fault. -/
def FDeadlineCloudJobPresetDetailsCustomization.Loop {FName : Type}
    [DecidableEq FName] (OuterJob : Option JobPtr)
    (PropertyOverrideHandler : FPropertyAvailabilityHandler FName) (StructName : FName) :
    List (IPropertyHandle FName) → FChildBuilderState FName →
      Except EFault (FChildBuilderState FName)
  | [], S => Except.ok S
  | ChildHandle :: Rest, S =>
      match FDeadlineCloudJobPresetDetailsCustomization.LoopBody OuterJob
          PropertyOverrideHandler StructName ChildHandle S with
      | Except.error e => Except.error e
      | Except.ok S1 =>
          FDeadlineCloudJobPresetDetailsCustomization.Loop OuterJob PropertyOverrideHandler
            StructName Rest S1

/-- Lines 89-96 of `CustomizeChildren`: `ToggleExpansion(true)` on every group that
`CreatedCategories` maps to. -/
def FDeadlineCloudJobPresetDetailsCustomization.ExpandAll {FName : Type}
    (S : FChildBuilderState FName) : FChildBuilderState FName :=
  { S with
    Groups :=
      (List.range S.Groups.length).zipWith
        (fun i G =>
          if S.CreatedCategories.any (fun kv => kv.2 == i)
          then { G with bExpanded := true } else G)
        S.Groups }

/-- The method `FDeadlineCloudJobPresetDetailsCustomization::CustomizeChildren` for a
struct handle with the given child handles: the handler member it makes and the child
builder's final state, or the fault it stops at. -/
def FDeadlineCloudJobPresetDetailsCustomization.CustomizeChildren {FName : Type}
    [DecidableEq FName] (StructHandle : IPropertyHandle FName)
    (Children : List (IPropertyHandle FName)) :
    Except EFault (FPropertyAvailabilityHandler FName × FChildBuilderState FName) :=
  let OuterJob := FPropertyAvailabilityHandler.GetOuterJob StructHandle
  let PropertyOverrideHandler : FPropertyAvailabilityHandler FName :=
    FPropertyAvailabilityHandler.Construct OuterJob
  let StructName := StructHandle.PropertyFName
  let Initial : FChildBuilderState FName :=
    match OuterJob with
    | some _ =>
        { Groups := [{ GroupName := StructName, bExpanded := false }]
          PropertyRows := []
          CreatedCategories := [(StructName, 0)] }
    | none => { Groups := [], PropertyRows := [], CreatedCategories := [] }
  match FDeadlineCloudJobPresetDetailsCustomization.Loop OuterJob PropertyOverrideHandler
      StructName Children Initial with
  | Except.error e => Except.error e
  | Except.ok S =>
      Except.ok (PropertyOverrideHandler,
        FDeadlineCloudJobPresetDetailsCustomization.ExpandAll S)

/-- The calls a handler can receive after construction, and what else can happen to the
state it looks at: its four methods, a click on the check box of the row that
`EnableInMovieRenderQueue` customized for a handle, and a change of the jobs made by the
rest of the program. -/
inductive FHandlerOp (FName : Type) where
  | IsPropertyRowEnabledInMovieRenderJob (InPropertyPath : FName)
  | IsPropertyRowEnabledInDataAsset (InPropertyPath : FName)
  | DisableRowInDataAsset (PropertyRow : IDetailPropertyRow FName)
  | EnableInMovieRenderQueue (PropertyRow : IDetailPropertyRow FName)
  | CheckStateChanged (Handle : IPropertyHandle FName) (NewState : ECheckBoxState)
  | JobsChanged (Heap : JobHeap FName)

/-- Effect of one operation on the handler and the jobs.  The two queries and the const
method `EnableInMovieRenderQueue` assign no member; `none` is a null-pointer
dereference. -/
def FHandlerOp.Step {FName : Type} [DecidableEq FName]
    (S : FPropertyAvailabilityHandler FName × JobHeap FName) :
    FHandlerOp FName → Option (FPropertyAvailabilityHandler FName × JobHeap FName)
  | IsPropertyRowEnabledInMovieRenderJob _ => some S
  | IsPropertyRowEnabledInDataAsset _ => some S
  | DisableRowInDataAsset PropertyRow => some (S.1.DisableRowInDataAsset PropertyRow, S.2)
  | EnableInMovieRenderQueue _ => some S
  | CheckStateChanged Handle NewState =>
      match (S.1.EnableInMovieRenderQueue (IDetailPropertyRow.Default Handle)).OnCheckStateChanged
          S.1 S.2 NewState with
      | none => none
      | some Heap1 => some (S.1, Heap1)
  | JobsChanged Heap => some (S.1, Heap)

/-- Runs a sequence of operations from a state, stopping at a fault. -/
def FHandlerOp.Run {FName : Type} [DecidableEq FName] :
    List (FHandlerOp FName) → FPropertyAvailabilityHandler FName × JobHeap FName →
      Option (FPropertyAvailabilityHandler FName × JobHeap FName)
  | [], S => some S
  | Op :: Ops, S =>
      match FHandlerOp.Step S Op with
      | none => none
      | some S1 => FHandlerOp.Run Ops S1

/-- A handle for a property whose path and name are `Path`, with the given `Category`
metadata and outer objects; used for concrete scenarios. -/
def ScenarioHandle (Path : String) (Category : Option String) (Outer : List UObject) :
    IPropertyHandle String :=
  { PathName := Path, PropertyFName := Path, Name := Path, Category := Category,
    OuterObjects := Outer }

/-- A jobs heap in which every job has every override flag off. -/
def ScenarioHeap : JobHeap String :=
  fun _ => { OverrideEnabled := fun _ => false }

/-- The attachment struct `InputFiles` of a data asset (no outer object), customized by
`FDeadlineCloudAttachmentDetailsCustomization::CustomizeChildren`. -/
def ScenarioAttachments : FDeadlineCloudAttachmentDetailsCustomization String :=
  FDeadlineCloudAttachmentDetailsCustomization.CustomizeChildren
    (ScenarioHandle "InputFiles" (some "Attachments") [])
    (ScenarioHandle "InputFiles.bShowAutoDetected" (some "Attachments") [])
    (ScenarioHandle "InputFiles.Files" (some "Attachments") [])
    (ScenarioHandle "InputFiles.AutoDetected" (some "Attachments") [])

/-- A job-preset struct of a data asset whose first child has no `Category` metadata. -/
def ScenarioPresetChildren : List (IPropertyHandle String) :=
  [ScenarioHandle "JobPresetStruct.Name" none [],
    ScenarioHandle "JobPresetStruct.Description" (some "Job shared settings") []]

/-- The method `FDeadlineCloudAttachmentArrayCustomization::CustomizeChildren`:
`InChildBuilder.AddCustomBuilder(ArrayBuilder.ToSharedRef())`; it assigns no member of the
customization. -/
def FDeadlineCloudAttachmentArrayCustomization.CustomizeChildren {FName : Type}
    (this : FDeadlineCloudAttachmentArrayCustomization FName) :
    FDeadlineCloudAttachmentArrayCustomization FName :=
  this

/-- The engine's `FName == const TCHAR*` comparison (engine code, not part of this
repository): names are compared by their text without regard to ASCII case.  A name is
kept as its text. -/
def FNameEqualsText (Name Text : String) : Bool :=
  Name.data.map Char.toUpper == Text.data.map Char.toUpper

/-- The engine's `FCString::Strnicmp(Str, Find, Length) == 0` with `Length` the length of
`Find` (engine code): `Find` is at the start of `Str`, without regard to ASCII case. -/
def FCString.StartsWith : List Char → List Char → Bool
  | _, [] => true
  | [], _ :: _ => false
  | c :: cs, f :: fs => c.toUpper == f.toUpper && FCString.StartsWith cs fs

/-- The engine's `FCString::Stristr(Str, Find)` used as a condition (engine code): walks
`Str` and answers at the first position whose character equals the first character of
`Find` without regard to ASCII case and where the rest of `Find` follows; an empty `Find`
is never found. -/
def FCString.Stristr : List Char → List Char → Bool
  | [], _ => false
  | c :: cs, Find =>
      (match Find with
        | [] => false
        | f :: fs => c.toUpper == f.toUpper && FCString.StartsWith cs fs)
      || FCString.Stristr cs Find

/-- The arguments of `Serialize` that the code reads: the message and the category (an
`FName`, kept as its text). -/
structure FLogLine where
  msg : String
  category : String

/-- First condition of `Serialize`:
`category == TEXT("LogPython") && FCString::Stristr(msg, TEXT("Job creation result: job-"))`. -/
def FLogLine.IsJobCreation (Line : FLogLine) : Bool :=
  FNameEqualsText Line.category "LogPython"
    && FCString.Stristr Line.msg.data "Job creation result: job-".data

/-- Second condition of `Serialize`: `category == TEXT("None")` and `Stristr` finds both
"Message dialog closed" and "Submitted jobs (1)" in the message. -/
def FLogLine.IsDialogConfirmation (Line : FLogLine) : Bool :=
  FNameEqualsText Line.category "None"
    && FCString.Stristr Line.msg.data "Message dialog closed".data
    && FCString.Stristr Line.msg.data "Submitted jobs (1)".data

/-- The line that `UE_LOG(LogCreateJobTest, ..., Text)` sends to the log devices. -/
def LogCreateJobTest (Text : String) : FLogLine :=
  { msg := Text, category := "LogCreateJobTest" }

/-- The members of `WaitForJobCreationLogCommand` that its methods read or write, with
what it did to its collaborators: the results given to `m_testInstance->TestTrue`, in
order, and the number of `RenderQueueWithExecutorInstance` calls. -/
structure WaitForJobCreationLogCommand where
  m_startTime : Float
  m_jobCreationFound : Bool
  m_dialogConfirmationFound : Bool
  m_renderStarted : Bool
  TestResults : List (String × Bool)
  RenderQueueCalls : Nat

/-- The member `const int TimeoutSeconds = 180`. -/
def WaitForJobCreationLogCommand.TimeoutSeconds : Int := 180

/-- The method `Serialize`.  The command is a registered log device, so each of its own
`UE_LOG` calls comes back as a nested `Serialize` call. -/
def WaitForJobCreationLogCommand.Serialize (this : WaitForJobCreationLogCommand)
    (Line : FLogLine) : WaitForJobCreationLogCommand :=
  let this1 :=
    if _h : Line.IsJobCreation = true then
      { this.Serialize (LogCreateJobTest "Found job creation log message") with
        m_jobCreationFound := true }
    else this
  if _h : Line.IsDialogConfirmation = true then
    { this1.Serialize (LogCreateJobTest "Found dialog confirmation message") with
      m_dialogConfirmationFound := true }
  else this1
termination_by (if Line.IsJobCreation || Line.IsDialogConfirmation then 1 else 0)
decreasing_by
  all_goals simp_wf
  all_goals
    have hPy : FNameEqualsText "LogCreateJobTest" "LogPython" = false := by decide
    have hNone : FNameEqualsText "LogCreateJobTest" "None" = false := by decide
    simp_all [LogCreateJobTest, FLogLine.IsJobCreation, FLogLine.IsDialogConfirmation]

/-- What `UE_LOG(LogCreateJobTest, ..., Text)` does to the command: it is a registered log
device, so the line comes back to its `Serialize`. -/
def WaitForJobCreationLogCommand.UE_LOG (this : WaitForJobCreationLogCommand)
    (Text : String) : WaitForJobCreationLogCommand :=
  this.Serialize (LogCreateJobTest Text)

/-- The constructor of `WaitForJobCreationLogCommand`, run when the clock reads `Now`:
initialises the members, registers the command as a log device and logs. -/
def WaitForJobCreationLogCommand.Construct (Now : Float) : WaitForJobCreationLogCommand :=
  WaitForJobCreationLogCommand.UE_LOG
    { m_startTime := Now, m_jobCreationFound := false, m_dialogConfirmationFound := false,
      m_renderStarted := false, TestResults := [], RenderQueueCalls := 0 }
    "Registered log listener"

/-- The text of the `UE_LOG` of the timeout branch, with its three `%d` filled in. -/
def WaitForJobCreationLogCommand.TimedOutText (this : WaitForJobCreationLogCommand) :
    String :=
  "Timed out after " ++ toString WaitForJobCreationLogCommand.TimeoutSeconds
    ++ " seconds. Job Creation: " ++ (if this.m_jobCreationFound then "1" else "0")
    ++ ", Dialog: " ++ (if this.m_dialogConfirmationFound then "1" else "0")

/-- The method `Update`, called when the clock reads `Now`.  On the first call it logs,
runs `RenderQueueWithExecutorInstance` and sets `m_renderStarted`; `RenderLog` is what the
engine and the executor log while `RenderQueueWithExecutorInstance` runs, each line
reaching `Serialize` before the call returns.  Then it records a passing result and
finishes when both flags are set; else records a failing result and finishes when more
than `TimeoutSeconds` have passed since construction; else asks to be called again.  The
result is the state after the call and the value returned. -/
def WaitForJobCreationLogCommand.Update (this : WaitForJobCreationLogCommand) (Now : Float)
    (RenderLog : List FLogLine) : WaitForJobCreationLogCommand × Bool :=
  let this1 :=
    if !this.m_renderStarted then
      let Logged := this.UE_LOG "Starting render queue"
      let Rendered := RenderLog.foldl WaitForJobCreationLogCommand.Serialize Logged
      { Rendered with
        RenderQueueCalls := Rendered.RenderQueueCalls + 1, m_renderStarted := true }
    else this
  if this1.m_jobCreationFound && this1.m_dialogConfirmationFound then
    let Logged := this1.UE_LOG "Both conditions met, marking test as successful"
    ({ Logged with TestResults := Logged.TestResults ++ [("Job creation succeeded", true)] },
      true)
  else if Now - this1.m_startTime > Float.ofInt WaitForJobCreationLogCommand.TimeoutSeconds then
    let Logged := this1.UE_LOG this1.TimedOutText
    ({ Logged with TestResults := Logged.TestResults ++ [("Job creation succeeded", false)] },
      true)
  else (this1, false)

/-- A call on a `WaitForJobCreationLogCommand` after its construction: a `Serialize` from
the log system outside any `Update`, or an `Update` at a clock reading together with what
is logged while that call runs `RenderQueueWithExecutorInstance` (read only by the call
that starts the render queue). -/
inductive FCommandCall where
  | Serialize (Line : FLogLine)
  | Update (Now : Float) (RenderLog : List FLogLine)

/-- The command after one call. -/
def FCommandCall.Apply (this : WaitForJobCreationLogCommand) :
    FCommandCall → WaitForJobCreationLogCommand
  | Serialize Line => this.Serialize Line
  | Update Now RenderLog => (this.Update Now RenderLog).1

/-- The command after a sequence of calls, in order. -/
def FCommandCall.Run (Calls : List FCommandCall) (this : WaitForJobCreationLogCommand) :
    WaitForJobCreationLogCommand :=
  Calls.foldl FCommandCall.Apply this

/-- The lines from outside the command that `Serialize` receives in separate calls, those
that the claim counts as received before a later call. -/
def FCommandCall.SerializedLines : List FCommandCall → List FLogLine
  | [] => []
  | Serialize Line :: Rest => Line :: FCommandCall.SerializedLines Rest
  | Update _ _ :: Rest => FCommandCall.SerializedLines Rest

/-- The lines from outside the command that `Serialize` receives during a sequence of
calls, given whether the render queue was started before: those of the separate
`Serialize` calls and, nested in the `Update` that starts the render queue, its render
log. -/
def FCommandCall.ReceivedLines : Bool → List FCommandCall → List FLogLine
  | _, [] => []
  | bStarted, Serialize Line :: Rest => Line :: FCommandCall.ReceivedLines bStarted Rest
  | bStarted, Update _ RenderLog :: Rest =>
      (if bStarted then [] else RenderLog) ++ FCommandCall.ReceivedLines true Rest

/-- The claim's job-creation message: category LogPython (as names are equal, without
regard to case) and a text that contains "Job creation result: job-", ignoring case. -/
def FLogLine.IsJobCreationMessage (Line : FLogLine) : Prop :=
  Line.category.data.map Char.toUpper = "LogPython".data.map Char.toUpper
    ∧ "Job creation result: job-".data.map Char.toUpper <:+: Line.msg.data.map Char.toUpper

/-- The claim's dialog message: category None and a text that contains both "Message
dialog closed" and "Submitted jobs (1)", ignoring case. -/
def FLogLine.IsDialogMessage (Line : FLogLine) : Prop :=
  Line.category.data.map Char.toUpper = "None".data.map Char.toUpper
    ∧ "Message dialog closed".data.map Char.toUpper <:+: Line.msg.data.map Char.toUpper
    ∧ "Submitted jobs (1)".data.map Char.toUpper <:+: Line.msg.data.map Char.toUpper

/-- A job-creation line as the Python executor logs it. -/
def ScenarioJobCreationLine : FLogLine :=
  { msg := "Job creation result: job-0123", category := "LogPython" }

/-- A dialog line as the engine logs it when the submission dialog closes. -/
def ScenarioDialogLine : FLogLine :=
  { msg := "Message dialog closed, result: Ok, text: Submitted jobs (1)", category := "None" }

/-! ## The Disabled-Field Set -/

theorem disabled_after_disables {FName : Type} [DecidableEq FName]
    (Rows : List (IDetailPropertyRow FName)) (H : FPropertyAvailabilityHandler FName) :
    (Rows.foldl FPropertyAvailabilityHandler.DisableRowInDataAsset
        H).PropertiesDisabledInDataAsset
      = H.PropertiesDisabledInDataAsset ∪
          (Rows.map (fun R => R.PropertyHandle.PathName)).toFinset := by
  induction Rows generalizing H with
  | nil => simp
  | cons R Rest ih =>
      rw [List.foldl_cons, ih]
      ext q
      simp only [FPropertyAvailabilityHandler.DisableRowInDataAsset, Finset.mem_union,
        Finset.mem_insert, List.map_cons, List.toFinset_cons]
      tauto

theorem job_after_disables {FName : Type} [DecidableEq FName]
    (Rows : List (IDetailPropertyRow FName)) (H : FPropertyAvailabilityHandler FName) :
    (Rows.foldl FPropertyAvailabilityHandler.DisableRowInDataAsset H).Job = H.Job := by
  induction Rows generalizing H with
  | nil => rfl
  | cons R Rest ih =>
      rw [List.foldl_cons, ih]
      rfl

theorem handler_ext {FName : Type} (A B : FPropertyAvailabilityHandler FName)
    (hJob : A.Job = B.Job)
    (hSet : A.PropertiesDisabledInDataAsset = B.PropertiesDisabledInDataAsset) : A = B := by
  cases A
  cases B
  simp only [FPropertyAvailabilityHandler.mk.injEq]
  exact ⟨hJob, hSet⟩

/-- C1: on a freshly constructed handler (with or without a job), after any sequence of
`DisableRowInDataAsset` calls, `IsPropertyRowEnabledInDataAsset p` is true exactly when
`p` was the path of none of the calls; a fresh handler answers true for every path; and
after disabling only "OutputPath", "Resolution" and "FrameRate" stay enabled while
"OutputPath" is not. -/
theorem C1_template_enabled_iff_never_disabled :
    (∀ (FName : Type) [DecidableEq FName] (InJob : Option JobPtr)
        (Rows : List (IDetailPropertyRow FName)) (p : FName),
        (Rows.foldl FPropertyAvailabilityHandler.DisableRowInDataAsset
            (FPropertyAvailabilityHandler.Construct InJob)).IsPropertyRowEnabledInDataAsset p
            = true
          ↔ p ∉ Rows.map (fun R => R.PropertyHandle.PathName))
    ∧ (∀ (FName : Type) [DecidableEq FName] (InJob : Option JobPtr) (p : FName),
        (FPropertyAvailabilityHandler.Construct InJob :
          FPropertyAvailabilityHandler FName).IsPropertyRowEnabledInDataAsset p = true)
    ∧ (∀ InJob : Option JobPtr,
        ((FPropertyAvailabilityHandler.Construct InJob).DisableRowInDataAsset
            (IDetailPropertyRow.Default (ScenarioHandle "OutputPath" none []))
          ).IsPropertyRowEnabledInDataAsset "Resolution" = true
        ∧ ((FPropertyAvailabilityHandler.Construct InJob).DisableRowInDataAsset
            (IDetailPropertyRow.Default (ScenarioHandle "OutputPath" none []))
          ).IsPropertyRowEnabledInDataAsset "FrameRate" = true
        ∧ ((FPropertyAvailabilityHandler.Construct InJob).DisableRowInDataAsset
            (IDetailPropertyRow.Default (ScenarioHandle "OutputPath" none []))
          ).IsPropertyRowEnabledInDataAsset "OutputPath" = false) := by
  refine ⟨?_, ?_, ?_⟩
  · intro FName _ InJob Rows p
    unfold FPropertyAvailabilityHandler.IsPropertyRowEnabledInDataAsset
    rw [disabled_after_disables]
    simp [FPropertyAvailabilityHandler.Construct]
  · intro FName _ InJob p
    simp [FPropertyAvailabilityHandler.IsPropertyRowEnabledInDataAsset,
      FPropertyAvailabilityHandler.Construct]
  · intro InJob
    simp [FPropertyAvailabilityHandler.IsPropertyRowEnabledInDataAsset,
      FPropertyAvailabilityHandler.Construct,
      FPropertyAvailabilityHandler.DisableRowInDataAsset, IDetailPropertyRow.Default,
      ScenarioHandle]

/-- C2: `DisableRowInDataAsset` is idempotent: after one call for a path `p`, any further
calls for `p` leave the handler (its set and so every answer of
`IsPropertyRowEnabledInDataAsset`) as the single call left it, and
`IsPropertyRowEnabledInDataAsset p` is false. -/
theorem C2_disable_idempotent {FName : Type} [DecidableEq FName]
    (H : FPropertyAvailabilityHandler FName) (p : FName)
    (R : IDetailPropertyRow FName) (More : List (IDetailPropertyRow FName))
    (hR : R.PropertyHandle.PathName = p)
    (hMore : ∀ R1 ∈ More, R1.PropertyHandle.PathName = p) :
    More.foldl FPropertyAvailabilityHandler.DisableRowInDataAsset
        (H.DisableRowInDataAsset R) = H.DisableRowInDataAsset R
    ∧ (∀ q : FName,
        (More.foldl FPropertyAvailabilityHandler.DisableRowInDataAsset
            (H.DisableRowInDataAsset R)).IsPropertyRowEnabledInDataAsset q
          = (H.DisableRowInDataAsset R).IsPropertyRowEnabledInDataAsset q)
    ∧ (More.foldl FPropertyAvailabilityHandler.DisableRowInDataAsset
          (H.DisableRowInDataAsset R)).IsPropertyRowEnabledInDataAsset p = false := by
  have hEq : More.foldl FPropertyAvailabilityHandler.DisableRowInDataAsset
      (H.DisableRowInDataAsset R) = H.DisableRowInDataAsset R := by
    apply handler_ext
    · exact job_after_disables More _
    · rw [disabled_after_disables]
      ext q
      simp only [FPropertyAvailabilityHandler.DisableRowInDataAsset, Finset.mem_union,
        Finset.mem_insert, List.mem_toFinset, List.mem_map]
      constructor
      · rintro (h | ⟨R1, hR1, rfl⟩)
        · exact h
        · left
          rw [hMore R1 hR1, hR]
      · intro h
        exact Or.inl h
  refine ⟨hEq, ?_, ?_⟩
  · intro q
    rw [hEq]
  · rw [hEq]
    simp [FPropertyAvailabilityHandler.IsPropertyRowEnabledInDataAsset,
      FPropertyAvailabilityHandler.DisableRowInDataAsset, hR]

/-- C2 at a concrete input: a handler over job 7 on which "OutputPath" is disabled three
times, through rows that differ in everything but the path. -/
theorem C2_disable_idempotent_witness :
    (IDetailPropertyRow.Default (ScenarioHandle "OutputPath" none [])).PropertyHandle.PathName
        = "OutputPath"
    ∧ (∀ R1 ∈ [IDetailPropertyRow.Default (ScenarioHandle "OutputPath" (some "Render") []),
          IDetailPropertyRow.Default (ScenarioHandle "OutputPath" none [UObject.Other])],
        R1.PropertyHandle.PathName = "OutputPath")
    ∧ ([IDetailPropertyRow.Default (ScenarioHandle "OutputPath" (some "Render") []),
          IDetailPropertyRow.Default (ScenarioHandle "OutputPath" none [UObject.Other])].foldl
          FPropertyAvailabilityHandler.DisableRowInDataAsset
          ((FPropertyAvailabilityHandler.Construct (some 7)).DisableRowInDataAsset
            (IDetailPropertyRow.Default (ScenarioHandle "OutputPath" none [])))
        ).IsPropertyRowEnabledInDataAsset "OutputPath" = false :=
  ⟨rfl, by simp [IDetailPropertyRow.Default, ScenarioHandle],
    (C2_disable_idempotent (FPropertyAvailabilityHandler.Construct (some 7)) "OutputPath"
      (IDetailPropertyRow.Default (ScenarioHandle "OutputPath" none []))
      [IDetailPropertyRow.Default (ScenarioHandle "OutputPath" (some "Render") []),
        IDetailPropertyRow.Default (ScenarioHandle "OutputPath" none [UObject.Other])]
      rfl (by simp [IDetailPropertyRow.Default, ScenarioHandle])).2.2⟩

/-! ## Job mode -/

/-- C3: for a handler over a job `j` (whatever its Disabled-Field Set) and every handle,
the row that `EnableInMovieRenderQueue` customizes carries a check box whose
`OnCheckStateChanged` lambda, run with `Checked`, succeeds and makes
`IsPropertyRowEnabledInMovieRenderJob` of the row's path true, and run with `Unchecked`
succeeds and makes it false. -/
theorem C3_job_mode_round_trip {FName : Type} [DecidableEq FName] (j : JobPtr)
    (Disabled : Finset FName) (Heap : JobHeap FName) (Handle : IPropertyHandle FName)
    (bEnabled : Bool) :
    ∃ (Box : SCheckBox FName) (Heap1 : JobHeap FName),
      (({ Job := some j, PropertiesDisabledInDataAsset := Disabled } :
          FPropertyAvailabilityHandler FName).EnableInMovieRenderQueue
          (IDetailPropertyRow.Default Handle)).NameContentCheckBox = some Box
      ∧ Box.OnCheckStateChanged { Job := some j, PropertiesDisabledInDataAsset := Disabled }
          Heap (if bEnabled then ECheckBoxState.Checked else ECheckBoxState.Unchecked)
          = some Heap1
      ∧ ({ Job := some j, PropertiesDisabledInDataAsset := Disabled } :
          FPropertyAvailabilityHandler FName).IsPropertyRowEnabledInMovieRenderJob Heap1
          Handle.PathName = bEnabled := by
  refine ⟨{ PropertyPath := Handle.PathName }, _, rfl, rfl, ?_⟩
  cases bEnabled <;>
    simp [FPropertyAvailabilityHandler.IsPropertyRowEnabledInMovieRenderJob,
      UMoviePipelineDeadlineCloudExecutorJob.IsPropertyRowEnabledInMovieRenderJob,
      UMoviePipelineDeadlineCloudExecutorJob.SetPropertyRowEnabledInMovieRenderJob]

/-- C4: on a handler without a job, `IsPropertyRowEnabledInMovieRenderJob` returns false
for every path whatever the jobs are (it reads none of them); on a handler with job `j`
it returns what job `j` itself answers for the path. -/
theorem C4_job_query_total {FName : Type} (Disabled : Finset FName)
    (Heap : JobHeap FName) (p : FName) :
    ({ Job := none, PropertiesDisabledInDataAsset := Disabled } :
        FPropertyAvailabilityHandler FName).IsPropertyRowEnabledInMovieRenderJob Heap p
      = false
    ∧ (FPropertyAvailabilityHandler.Construct none :
        FPropertyAvailabilityHandler FName).IsPropertyRowEnabledInMovieRenderJob Heap p
      = false
    ∧ (∀ j : JobPtr,
        ({ Job := some j, PropertiesDisabledInDataAsset := Disabled } :
          FPropertyAvailabilityHandler FName).IsPropertyRowEnabledInMovieRenderJob Heap p
        = (Heap j).IsPropertyRowEnabledInMovieRenderJob p) :=
  ⟨rfl, rfl, fun _ => rfl⟩

/-- C5: on a handler without a job, `EnableInMovieRenderQueue` returns the row as it got
it, so the row of a handle has no check box; a click on that row then changes neither
the jobs nor the handler and does not fault.  Run directly, the check box's unguarded
`OnCheckStateChanged` lambda would dereference the null job. -/
theorem C5_no_job_no_write {FName : Type} [DecidableEq FName] (Disabled : Finset FName)
    (Heap : JobHeap FName) (Handle : IPropertyHandle FName)
    (PropertyRow : IDetailPropertyRow FName) (NewState : ECheckBoxState) :
    ({ Job := none, PropertiesDisabledInDataAsset := Disabled } :
        FPropertyAvailabilityHandler FName).EnableInMovieRenderQueue PropertyRow = PropertyRow
    ∧ (({ Job := none, PropertiesDisabledInDataAsset := Disabled } :
        FPropertyAvailabilityHandler FName).EnableInMovieRenderQueue
          (IDetailPropertyRow.Default Handle)).NameContentCheckBox = none
    ∧ (({ Job := none, PropertiesDisabledInDataAsset := Disabled } :
        FPropertyAvailabilityHandler FName).EnableInMovieRenderQueue
          (IDetailPropertyRow.Default Handle)).OnCheckStateChanged
          { Job := none, PropertiesDisabledInDataAsset := Disabled } Heap NewState = some Heap
    ∧ FHandlerOp.Step
          (({ Job := none, PropertiesDisabledInDataAsset := Disabled } :
            FPropertyAvailabilityHandler FName), Heap)
          (FHandlerOp.CheckStateChanged Handle NewState)
        = some ({ Job := none, PropertiesDisabledInDataAsset := Disabled }, Heap)
    ∧ (SCheckBox.mk Handle.PathName).OnCheckStateChanged
          { Job := none, PropertiesDisabledInDataAsset := Disabled } Heap NewState = none :=
  ⟨rfl, rfl, rfl, rfl, rfl⟩

/-! ## The display rule -/

/-- In job mode the value widget of a row customized by `EnableInMovieRenderQueue` is
enabled exactly when the display rule says so. -/
theorem display_rule_job_row {FName : Type} [DecidableEq FName] (j : JobPtr)
    (Disabled : Finset FName) (Heap : JobHeap FName) (Handle : IPropertyHandle FName) :
    (({ Job := some j, PropertiesDisabledInDataAsset := Disabled } :
        FPropertyAvailabilityHandler FName).EnableInMovieRenderQueue
        (IDetailPropertyRow.Default Handle)).IsValueWidgetEnabled
        { Job := some j, PropertiesDisabledInDataAsset := Disabled } Heap
      = some (DerivedDisplayRule { Job := some j, PropertiesDisabledInDataAsset := Disabled }
          Heap Handle.PathName) := by
  simp [FPropertyAvailabilityHandler.EnableInMovieRenderQueue,
    IDetailPropertyRow.IsValueWidgetEnabled, FIsEnabledLambda.Execute, DerivedDisplayRule,
    FPropertyAvailabilityHandler.IsPropertyRowEnabledInMovieRenderJob, IDetailPropertyRow.Default]

/-- The header callback bound by `CustomizeHeader` follows the display rule of the handler
that `CustomizeHeader` itself made. -/
theorem display_rule_array_header {FName : Type} [DecidableEq FName]
    (Heap : JobHeap FName) (Handle : IPropertyHandle FName) :
    (FDeadlineCloudAttachmentArrayCustomization.CustomizeHeader Handle).IsHeaderEnabled Heap
      = some (DerivedDisplayRule
          (FDeadlineCloudAttachmentArrayCustomization.CustomizeHeader Handle).PropertyOverrideHandler
          Heap Handle.PathName) := by
  unfold FDeadlineCloudAttachmentArrayCustomization.CustomizeHeader
  cases hJ : FPropertyAvailabilityHandler.GetOuterJob Handle <;>
    simp [FDeadlineCloudAttachmentArrayCustomization.IsHeaderEnabled,
      FDeadlineCloudAttachmentArrayBuilder.IsEnabled, FIsEnabledLambda.Execute,
      DerivedDisplayRule, FPropertyAvailabilityHandler.Construct,
      FPropertyAvailabilityHandler.IsPropertyRowEnabledInMovieRenderJob]

/-- C6, the code at the failing input: for the attachment struct of a data asset,
`CustomizeChildren` leaves a handler without a job on which the auto-detected paths row
is disabled, so the display rule says its control is disabled for every state of the
jobs; but the row has no enabled attribute at all (the same as the `Files` row, which the
rule enables), its value widget is enabled, and the header callback that
`CustomizeHeader` binds for the same property, on a handler of its own, answers true. -/
theorem C6_auto_detected_row_stays_enabled :
    ScenarioAttachments.PropertyOverrideHandler.Job = none
    ∧ (∀ Heap : JobHeap String,
        DerivedDisplayRule ScenarioAttachments.PropertyOverrideHandler Heap
          ScenarioAttachments.AutoDetectedPathsRow.PropertyHandle.PathName = false)
    ∧ (∀ Heap : JobHeap String,
        DerivedDisplayRule ScenarioAttachments.PropertyOverrideHandler Heap
          ScenarioAttachments.PathsRow.PropertyHandle.PathName = true)
    ∧ ScenarioAttachments.AutoDetectedPathsRow.ValueWidgetEnabled = none
    ∧ ScenarioAttachments.PathsRow.ValueWidgetEnabled = none
    ∧ (∀ Heap : JobHeap String,
        ScenarioAttachments.AutoDetectedPathsRow.IsValueWidgetEnabled
          ScenarioAttachments.PropertyOverrideHandler Heap = some true)
    ∧ (∀ Heap : JobHeap String,
        (FDeadlineCloudAttachmentArrayCustomization.CustomizeHeader
          ScenarioAttachments.AutoDetectedPathsRow.PropertyHandle).IsHeaderEnabled Heap
          = some true) := by
  refine ⟨rfl, ?_, ?_, rfl, rfl, fun _ => rfl, ?_⟩
  · intro Heap
    simp [ScenarioAttachments, FDeadlineCloudAttachmentDetailsCustomization.CustomizeChildren,
      FPropertyAvailabilityHandler.GetOuterJob, ScenarioHandle, DerivedDisplayRule,
      FPropertyAvailabilityHandler.Construct, FPropertyAvailabilityHandler.DisableRowInDataAsset,
      FPropertyAvailabilityHandler.IsPropertyRowEnabledInDataAsset,
      FPropertyAvailabilityHandler.IsPropertyRowEnabledInMovieRenderJob,
      IDetailPropertyRow.Default]
  · intro Heap
    simp [ScenarioAttachments, FDeadlineCloudAttachmentDetailsCustomization.CustomizeChildren,
      FPropertyAvailabilityHandler.GetOuterJob, ScenarioHandle, DerivedDisplayRule,
      FPropertyAvailabilityHandler.Construct, FPropertyAvailabilityHandler.DisableRowInDataAsset,
      FPropertyAvailabilityHandler.IsPropertyRowEnabledInDataAsset,
      FPropertyAvailabilityHandler.IsPropertyRowEnabledInMovieRenderJob,
      IDetailPropertyRow.Default]
  · intro Heap
    simp [ScenarioAttachments, FDeadlineCloudAttachmentDetailsCustomization.CustomizeChildren,
      FDeadlineCloudAttachmentArrayCustomization.CustomizeHeader,
      FDeadlineCloudAttachmentArrayCustomization.IsHeaderEnabled,
      FDeadlineCloudAttachmentArrayBuilder.IsEnabled, FIsEnabledLambda.Execute,
      FPropertyAvailabilityHandler.GetOuterJob, ScenarioHandle,
      FPropertyAvailabilityHandler.Construct,
      FPropertyAvailabilityHandler.IsPropertyRowEnabledInDataAsset,
      IDetailPropertyRow.Default]

/-- C7: two handlers over the same job `j` whose Disabled-Field Sets differ in any way
answer `IsPropertyRowEnabledInMovieRenderJob p` alike, with job `j`'s own flag for `p`;
so do a handler with an empty set and one with `p` in its set. -/
theorem C7_job_mode_ignores_disabled_set {FName : Type} [DecidableEq FName] (j : JobPtr)
    (Heap : JobHeap FName) (p : FName) (Disabled1 Disabled2 : Finset FName) :
    ({ Job := some j, PropertiesDisabledInDataAsset := Disabled1 } :
        FPropertyAvailabilityHandler FName).IsPropertyRowEnabledInMovieRenderJob Heap p
      = ({ Job := some j, PropertiesDisabledInDataAsset := Disabled2 } :
        FPropertyAvailabilityHandler FName).IsPropertyRowEnabledInMovieRenderJob Heap p
    ∧ ({ Job := some j, PropertiesDisabledInDataAsset := Disabled1 } :
        FPropertyAvailabilityHandler FName).IsPropertyRowEnabledInMovieRenderJob Heap p
      = (Heap j).IsPropertyRowEnabledInMovieRenderJob p
    ∧ (FPropertyAvailabilityHandler.Construct (some j) :
        FPropertyAvailabilityHandler FName).IsPropertyRowEnabledInMovieRenderJob Heap p
      = ({ Job := some j, PropertiesDisabledInDataAsset := {p} } :
        FPropertyAvailabilityHandler FName).IsPropertyRowEnabledInMovieRenderJob Heap p :=
  ⟨rfl, rfl, rfl⟩

/-! ## Sequences of operations -/

/-- Every operation succeeds, keeps the handler's job pointer and removes nothing from
its set. -/
theorem step_keeps {FName : Type} [DecidableEq FName]
    (S : FPropertyAvailabilityHandler FName × JobHeap FName) (Op : FHandlerOp FName) :
    ∃ S1, FHandlerOp.Step S Op = some S1 ∧ S1.1.Job = S.1.Job
      ∧ S.1.PropertiesDisabledInDataAsset ⊆ S1.1.PropertiesDisabledInDataAsset := by
  obtain ⟨⟨J, D⟩, Heap⟩ := S
  cases Op with
  | IsPropertyRowEnabledInMovieRenderJob q => exact ⟨_, rfl, rfl, Finset.Subset.refl _⟩
  | IsPropertyRowEnabledInDataAsset q => exact ⟨_, rfl, rfl, Finset.Subset.refl _⟩
  | DisableRowInDataAsset R =>
      exact ⟨_, rfl, rfl, Finset.subset_insert _ _⟩
  | EnableInMovieRenderQueue R => exact ⟨_, rfl, rfl, Finset.Subset.refl _⟩
  | CheckStateChanged Handle NewState =>
      cases J with
      | none => exact ⟨_, rfl, rfl, Finset.Subset.refl _⟩
      | some j => exact ⟨_, rfl, rfl, Finset.Subset.refl _⟩
  | JobsChanged Heap1 => exact ⟨_, rfl, rfl, Finset.Subset.refl _⟩

/-- Every sequence of operations runs to the end, keeps the handler's job pointer and
removes nothing from its set. -/
theorem run_keeps {FName : Type} [DecidableEq FName] (Ops : List (FHandlerOp FName))
    (S : FPropertyAvailabilityHandler FName × JobHeap FName) :
    ∃ S1, FHandlerOp.Run Ops S = some S1 ∧ S1.1.Job = S.1.Job
      ∧ S.1.PropertiesDisabledInDataAsset ⊆ S1.1.PropertiesDisabledInDataAsset := by
  induction Ops generalizing S with
  | nil => exact ⟨S, rfl, rfl, Finset.Subset.refl _⟩
  | cons Op Rest ih =>
      obtain ⟨S1, hStep, hJob1, hSub1⟩ := step_keeps S Op
      obtain ⟨S2, hRun, hJob2, hSub2⟩ := ih S1
      refine ⟨S2, ?_, hJob2.trans hJob1, hSub1.trans hSub2⟩
      simp only [FHandlerOp.Run, hStep]
      exact hRun

/-- C8: once `DisableRowInDataAsset` was called for a row on a handler (with or without a
job, whatever the jobs' flags), every later sequence of operations (further disables,
queries, `EnableInMovieRenderQueue`, check-box clicks that write job flags, changes of
the jobs from outside) runs to the end in a state whose set still contains everything it
contained, and `IsPropertyRowEnabledInDataAsset` of the row's path is false there. -/
theorem C8_disabling_is_one_way {FName : Type} [DecidableEq FName]
    (H : FPropertyAvailabilityHandler FName) (Heap : JobHeap FName)
    (Row : IDetailPropertyRow FName) (Ops : List (FHandlerOp FName)) :
    ∃ S1, FHandlerOp.Run Ops (H.DisableRowInDataAsset Row, Heap) = some S1
      ∧ S1.1.IsPropertyRowEnabledInDataAsset Row.PropertyHandle.PathName = false
      ∧ (H.DisableRowInDataAsset Row).PropertiesDisabledInDataAsset
          ⊆ S1.1.PropertiesDisabledInDataAsset := by
  obtain ⟨S1, hRun, _, hSub⟩ := run_keeps Ops (H.DisableRowInDataAsset Row, Heap)
  refine ⟨S1, hRun, ?_, hSub⟩
  have hMem : Row.PropertyHandle.PathName ∈ S1.1.PropertiesDisabledInDataAsset :=
    hSub (by simp [FPropertyAvailabilityHandler.DisableRowInDataAsset])
  simp [FPropertyAvailabilityHandler.IsPropertyRowEnabledInDataAsset, hMem]

/-- C9: the job pointer that the constructor stores is the handler's job pointer after
every sequence of operations, so a handler built with a job keeps it and one built
without a job never gets one; and `CustomizeHeader` binds the job query exactly when the
handler it made holds a job, the data-asset query exactly when it holds none. -/
theorem C9_mode_fixed_at_construction {FName : Type} [DecidableEq FName]
    (InJob : Option JobPtr) (Heap : JobHeap FName) (Ops : List (FHandlerOp FName))
    (Handle : IPropertyHandle FName) :
    (FPropertyAvailabilityHandler.Construct InJob : FPropertyAvailabilityHandler FName).Job
        = InJob
    ∧ (∃ S1, FHandlerOp.Run Ops (FPropertyAvailabilityHandler.Construct InJob, Heap) = some S1
        ∧ S1.1.Job = InJob)
    ∧ ((FDeadlineCloudAttachmentArrayCustomization.CustomizeHeader Handle).ArrayBuilder.OnIsEnabled
          = some (FIsEnabledLambda.HeaderMovieRenderJob Handle.PathName)
        ↔ (FDeadlineCloudAttachmentArrayCustomization.CustomizeHeader
            Handle).PropertyOverrideHandler.Job.isSome = true)
    ∧ ((FDeadlineCloudAttachmentArrayCustomization.CustomizeHeader Handle).ArrayBuilder.OnIsEnabled
          = some (FIsEnabledLambda.HeaderDataAsset Handle.PathName)
        ↔ (FDeadlineCloudAttachmentArrayCustomization.CustomizeHeader
            Handle).PropertyOverrideHandler.Job = none) := by
  refine ⟨rfl, ?_, ?_, ?_⟩
  · obtain ⟨S1, hRun, hJob, _⟩ :=
      run_keeps Ops ((FPropertyAvailabilityHandler.Construct InJob :
        FPropertyAvailabilityHandler FName), Heap)
    exact ⟨S1, hRun, hJob⟩
  · unfold FDeadlineCloudAttachmentArrayCustomization.CustomizeHeader
    cases hJ : FPropertyAvailabilityHandler.GetOuterJob Handle <;>
      simp [FPropertyAvailabilityHandler.Construct,
        FDeadlineCloudAttachmentArrayBuilder.MakeInstance]
  · unfold FDeadlineCloudAttachmentArrayCustomization.CustomizeHeader
    cases hJ : FPropertyAvailabilityHandler.GetOuterJob Handle <;>
      simp [FPropertyAvailabilityHandler.Construct,
        FDeadlineCloudAttachmentArrayBuilder.MakeInstance]

/-! ## The job-preset loop -/

/-- The hidden check answers false for every path, so the loop body never takes its
`continue`. -/
theorem never_hidden {FName : Type} (OuterJob : Option JobPtr) (InPropertyPath : FName) :
    (OuterJob.isSome &&
      FDeadlineCloudJobPresetDetailsCustomization.IsPropertyHiddenInMovieRenderQueue
        InPropertyPath) = false := by
  simp [FDeadlineCloudJobPresetDetailsCustomization.IsPropertyHiddenInMovieRenderQueue]

/-- For a child with `Category` metadata the group selection yields a group; it adds no
row, and in job mode it leaves `CreatedCategories` as it was. -/
theorem select_group_of_category {FName : Type} [DecidableEq FName]
    (OuterJob : Option JobPtr) (StructName : FName) (ChildHandle : IPropertyHandle FName)
    (S : FChildBuilderState FName) (hCat : ChildHandle.Category.isSome = true)
    (hBase : OuterJob.isSome = true → (S.CreatedCategories.lookup StructName).isSome = true) :
    ∃ g S1,
      FDeadlineCloudJobPresetDetailsCustomization.SelectGroup OuterJob StructName ChildHandle S
        = Except.ok (some g, S1)
      ∧ S1.PropertyRows = S.PropertyRows
      ∧ (OuterJob.isSome = true → S1.CreatedCategories = S.CreatedCategories) := by
  cases hC : ChildHandle.Category with
  | none => simp [hC] at hCat
  | some Cat =>
      cases hF : S.CreatedCategories.lookup Cat with
      | some g =>
          exact ⟨g, S,
            by simp [FDeadlineCloudJobPresetDetailsCustomization.SelectGroup, hC, hF],
            rfl, fun _ => rfl⟩
      | none =>
          cases OuterJob with
          | some j =>
              cases hB : S.CreatedCategories.lookup StructName with
              | none => simp [hB] at hBase
              | some b =>
                  exact ⟨b, S,
                    by simp [FDeadlineCloudJobPresetDetailsCustomization.SelectGroup, hC, hF, hB],
                    rfl, fun _ => rfl⟩
          | none =>
              exact ⟨S.Groups.length,
                { S with
                  Groups := S.Groups ++ [{ GroupName := StructName, bExpanded := true }]
                  CreatedCategories :=
                    (Cat, S.Groups.length) ::
                      S.CreatedCategories.filter (fun kv => decide (kv.1 ≠ Cat)) },
                by simp [FDeadlineCloudJobPresetDetailsCustomization.SelectGroup, hC, hF],
                rfl, fun h => by simp at h⟩

/-- For a child with `Category` metadata the loop body adds exactly one row, for that
child, after the rows already there. -/
theorem loop_body_of_category {FName : Type} [DecidableEq FName]
    (OuterJob : Option JobPtr) (Handler : FPropertyAvailabilityHandler FName)
    (StructName : FName) (ChildHandle : IPropertyHandle FName)
    (S : FChildBuilderState FName) (hCat : ChildHandle.Category.isSome = true)
    (hBase : OuterJob.isSome = true → (S.CreatedCategories.lookup StructName).isSome = true) :
    ∃ S1,
      FDeadlineCloudJobPresetDetailsCustomization.LoopBody OuterJob Handler StructName
        ChildHandle S = Except.ok S1
      ∧ S1.PropertyRows.map (fun gr => gr.2.PropertyHandle)
          = S.PropertyRows.map (fun gr => gr.2.PropertyHandle) ++ [ChildHandle]
      ∧ (OuterJob.isSome = true → (S1.CreatedCategories.lookup StructName).isSome = true) := by
  obtain ⟨g, S0, hSel, hRows, hCats⟩ :=
    select_group_of_category OuterJob StructName ChildHandle S hCat hBase
  unfold FDeadlineCloudJobPresetDetailsCustomization.LoopBody
  rw [never_hidden, hSel]
  refine ⟨_, rfl, ?_, ?_⟩
  · cases OuterJob with
    | none =>
        simp [hRows,
          FDeadlineCloudJobPresetDetailsCustomization.CustomizeStructChildrenInAssetDetails,
          IDetailPropertyRow.Default]
    | some j =>
        cases hJ : Handler.Job <;>
          simp [hRows, hJ,
            FDeadlineCloudJobPresetDetailsCustomization.CustomizeStructChildrenInMovieRenderQueue,
            FPropertyAvailabilityHandler.EnableInMovieRenderQueue, IDetailPropertyRow.Default]
  · intro h
    simpa [hCats h] using hBase h

/-- When every child has `Category` metadata the loop runs to the end and adds one row
per child, in index order. -/
theorem loop_of_categories {FName : Type} [DecidableEq FName]
    (OuterJob : Option JobPtr) (Handler : FPropertyAvailabilityHandler FName)
    (StructName : FName) (Children : List (IPropertyHandle FName))
    (S : FChildBuilderState FName)
    (hCat : ∀ c ∈ Children, c.Category.isSome = true)
    (hBase : OuterJob.isSome = true → (S.CreatedCategories.lookup StructName).isSome = true) :
    ∃ S1,
      FDeadlineCloudJobPresetDetailsCustomization.Loop OuterJob Handler StructName Children S
        = Except.ok S1
      ∧ S1.PropertyRows.map (fun gr => gr.2.PropertyHandle)
          = S.PropertyRows.map (fun gr => gr.2.PropertyHandle) ++ Children := by
  induction Children generalizing S with
  | nil => exact ⟨S, rfl, by simp⟩
  | cons c Rest ih =>
      obtain ⟨S1, hBody, hRows1, hBase1⟩ :=
        loop_body_of_category OuterJob Handler StructName c S
          (hCat c (List.mem_cons_self _ _)) hBase
      obtain ⟨S2, hLoop, hRows2⟩ :=
        ih S1 (fun d hd => hCat d (List.mem_cons_of_mem _ hd)) hBase1
      refine ⟨S2, ?_, ?_⟩
      · simp only [FDeadlineCloudJobPresetDetailsCustomization.Loop, hBody]
        exact hLoop
      · rw [hRows2, hRows1]
        simp

/-- When every child has `Category` metadata, `CustomizeChildren` returns, in job mode as
in template mode, and the rows it added are those of the children in index order. -/
theorem customize_children_of_categories {FName : Type} [DecidableEq FName]
    (StructHandle : IPropertyHandle FName) (Children : List (IPropertyHandle FName))
    (hCat : ∀ c ∈ Children, c.Category.isSome = true) :
    ∃ H S,
      FDeadlineCloudJobPresetDetailsCustomization.CustomizeChildren StructHandle Children
        = Except.ok (H, S)
      ∧ S.PropertyRows.map (fun gr => gr.2.PropertyHandle) = Children := by
  cases hJ : FPropertyAvailabilityHandler.GetOuterJob StructHandle with
  | none =>
      obtain ⟨S1, hLoop, hRows⟩ :=
        loop_of_categories none (FPropertyAvailabilityHandler.Construct none)
          StructHandle.PropertyFName Children
          { Groups := [], PropertyRows := [], CreatedCategories := [] } hCat
          (fun h => by simp at h)
      refine ⟨FPropertyAvailabilityHandler.Construct none,
        FDeadlineCloudJobPresetDetailsCustomization.ExpandAll S1, ?_, ?_⟩
      · simp only [FDeadlineCloudJobPresetDetailsCustomization.CustomizeChildren, hJ, hLoop]
      · simpa [FDeadlineCloudJobPresetDetailsCustomization.ExpandAll] using hRows
  | some j =>
      obtain ⟨S1, hLoop, hRows⟩ :=
        loop_of_categories (some j) (FPropertyAvailabilityHandler.Construct (some j))
          StructHandle.PropertyFName Children
          { Groups := [{ GroupName := StructHandle.PropertyFName, bExpanded := false }]
            PropertyRows := []
            CreatedCategories := [(StructHandle.PropertyFName, 0)] } hCat
          (fun _ => by simp [List.lookup])
      refine ⟨FPropertyAvailabilityHandler.Construct (some j),
        FDeadlineCloudJobPresetDetailsCustomization.ExpandAll S1, ?_, ?_⟩
      · simp only [FDeadlineCloudJobPresetDetailsCustomization.CustomizeChildren, hJ, hLoop]
      · simpa [FDeadlineCloudJobPresetDetailsCustomization.ExpandAll] using hRows

/-- C10, the code at the failing input: `IsPropertyHiddenInMovieRenderQueue` is false for
every path, yet for a struct whose first child has no `Category` metadata
`CustomizeChildren` stops at that child with a call through the null `GroupToUse`, in
template mode as in job mode, so the second child never gets to its row. -/
theorem C10_category_less_child_stops_the_loop :
    (∀ p : String,
      FDeadlineCloudJobPresetDetailsCustomization.IsPropertyHiddenInMovieRenderQueue p = false)
    ∧ FDeadlineCloudJobPresetDetailsCustomization.CustomizeChildren
        (ScenarioHandle "JobPresetStruct" none []) ScenarioPresetChildren
        = Except.error EFault.NullGroupDereference
    ∧ FDeadlineCloudJobPresetDetailsCustomization.CustomizeChildren
        (ScenarioHandle "JobPresetStruct" none [UObject.Job 7]) ScenarioPresetChildren
        = Except.error EFault.NullGroupDereference :=
  ⟨fun _ => rfl, rfl, rfl⟩

/-! ## The job-creation test command -/

/-- The prefix test of the text search is the prefix relation on the upper-cased texts. -/
theorem starts_with_iff (Find Str : List Char) :
    FCString.StartsWith Str Find = true ↔ Find.map Char.toUpper <+: Str.map Char.toUpper := by
  induction Find generalizing Str with
  | nil => simp [FCString.StartsWith]
  | cons f fs ih =>
      cases Str with
      | nil => simp [FCString.StartsWith]
      | cons c cs =>
          simp only [FCString.StartsWith, Bool.and_eq_true, beq_iff_eq, List.map_cons,
            List.cons_prefix_cons, ih]
          constructor
          · rintro ⟨h1, h2⟩
            exact ⟨h1.symm, h2⟩
          · rintro ⟨h1, h2⟩
            exact ⟨h1.symm, h2⟩

/-- For a non-empty text to find, the text search succeeds exactly when the upper-cased
text to find is a contiguous part of the upper-cased text searched. -/
theorem stristr_iff (f : Char) (fs Str : List Char) :
    FCString.Stristr Str (f :: fs) = true
      ↔ (f :: fs).map Char.toUpper <:+: Str.map Char.toUpper := by
  induction Str with
  | nil => simp [FCString.Stristr]
  | cons c cs ih =>
      have hc : List.map Char.toUpper (c :: cs) = c.toUpper :: List.map Char.toUpper cs := rfl
      rw [FCString.Stristr, Bool.or_eq_true, ih, hc, List.infix_cons_iff, ← hc]
      apply or_congr_left
      have h := starts_with_iff (f :: fs) (c :: cs)
      simp only [FCString.StartsWith] at h
      exact h

/-- The first condition of `Serialize` holds exactly for the claim's job-creation
messages. -/
theorem is_job_creation_iff (Line : FLogLine) :
    Line.IsJobCreation = true ↔ Line.IsJobCreationMessage := by
  simp only [FLogLine.IsJobCreation, FLogLine.IsJobCreationMessage, Bool.and_eq_true,
    FNameEqualsText, beq_iff_eq]
  rw [stristr_iff]

/-- The second condition of `Serialize` holds exactly for the claim's dialog messages. -/
theorem is_dialog_confirmation_iff (Line : FLogLine) :
    Line.IsDialogConfirmation = true ↔ Line.IsDialogMessage := by
  simp only [FLogLine.IsDialogConfirmation, FLogLine.IsDialogMessage, Bool.and_eq_true,
    FNameEqualsText, beq_iff_eq]
  rw [stristr_iff, stristr_iff, and_assoc]

/-- A line of the command's own `UE_LOG` calls leaves the command as it was. -/
theorem serialize_own (S : WaitForJobCreationLogCommand) (Text : String) :
    S.Serialize (LogCreateJobTest Text) = S := by
  have hPy : FNameEqualsText "LogCreateJobTest" "LogPython" = false := by decide
  have hNone : FNameEqualsText "LogCreateJobTest" "None" = false := by decide
  rw [WaitForJobCreationLogCommand.Serialize]
  simp [LogCreateJobTest, FLogLine.IsJobCreation, FLogLine.IsDialogConfirmation, hPy, hNone]

/-- What `Serialize` does: it sets each flag whose condition the line meets and changes
nothing else. -/
theorem serialize_eq (S : WaitForJobCreationLogCommand) (Line : FLogLine) :
    S.Serialize Line
      = { S with
          m_jobCreationFound := S.m_jobCreationFound || Line.IsJobCreation
          m_dialogConfirmationFound :=
            S.m_dialogConfirmationFound || Line.IsDialogConfirmation } := by
  rw [WaitForJobCreationLogCommand.Serialize]
  cases hJ : Line.IsJobCreation <;> cases hD : Line.IsDialogConfirmation <;>
    simp [serialize_own]

/-- What a run of `Serialize` calls does. -/
theorem serialize_fold (Lines : List FLogLine) (S : WaitForJobCreationLogCommand) :
    Lines.foldl WaitForJobCreationLogCommand.Serialize S
      = { S with
          m_jobCreationFound := S.m_jobCreationFound || Lines.any FLogLine.IsJobCreation
          m_dialogConfirmationFound :=
            S.m_dialogConfirmationFound || Lines.any FLogLine.IsDialogConfirmation } := by
  induction Lines generalizing S with
  | nil => simp
  | cons Line Rest ih =>
      rw [List.foldl_cons, ih, serialize_eq]
      simp [Bool.or_assoc]

/-- What an `Update` records, in terms of the flags as the call leaves them (they do not
change after the test): a passing result exactly when both are set, a failing result
exactly when one is unset and the timeout has passed; the start time is kept and the
render queue is started. -/
theorem update_records (S : WaitForJobCreationLogCommand) (Now : Float)
    (RenderLog : List FLogLine) :
    ((S.Update Now RenderLog).1.TestResults
        = S.TestResults ++ [("Job creation succeeded", true)]
      ↔ (S.Update Now RenderLog).1.m_jobCreationFound = true
        ∧ (S.Update Now RenderLog).1.m_dialogConfirmationFound = true)
    ∧ ((S.Update Now RenderLog).1.TestResults
        = S.TestResults ++ [("Job creation succeeded", false)]
      ↔ ¬ ((S.Update Now RenderLog).1.m_jobCreationFound = true
          ∧ (S.Update Now RenderLog).1.m_dialogConfirmationFound = true)
        ∧ Now - S.m_startTime > Float.ofInt 180)
    ∧ (S.Update Now RenderLog).1.m_startTime = S.m_startTime
    ∧ (S.Update Now RenderLog).1.m_renderStarted = true
    ∧ (S.Update Now RenderLog).1.m_jobCreationFound
        = (S.m_jobCreationFound
          || (if S.m_renderStarted then [] else RenderLog).any FLogLine.IsJobCreation)
    ∧ (S.Update Now RenderLog).1.m_dialogConfirmationFound
        = (S.m_dialogConfirmationFound
          || (if S.m_renderStarted then [] else RenderLog).any FLogLine.IsDialogConfirmation) := by
  obtain ⟨T, J, D, R, Res, N⟩ := S
  cases R
  · simp only [WaitForJobCreationLogCommand.Update, WaitForJobCreationLogCommand.UE_LOG,
      serialize_own, serialize_fold, WaitForJobCreationLogCommand.TimeoutSeconds,
      Bool.false_eq_true, if_false, Bool.not_false, if_true]
    generalize RenderLog.any FLogLine.IsJobCreation = a
    generalize RenderLog.any FLogLine.IsDialogConfirmation = b
    by_cases hT : Now - T > Float.ofInt 180 <;>
      cases J <;> cases D <;> cases a <;> cases b <;> simp [hT]
  · by_cases hT : Now - T > Float.ofInt 180 <;>
      cases J <;> cases D <;>
      simp [WaitForJobCreationLogCommand.Update, WaitForJobCreationLogCommand.UE_LOG,
        serialize_own, WaitForJobCreationLogCommand.TimeoutSeconds, hT]

/-- One call keeps the start time, and sets a found-flag exactly when `Serialize` receives
a matching line during it; it clears none. -/
theorem apply_flags (S : WaitForJobCreationLogCommand) (Call : FCommandCall)
    (Rest : List FCommandCall) :
    (FCommandCall.Apply S Call).m_startTime = S.m_startTime
    ∧ ∃ Lines,
        FCommandCall.ReceivedLines S.m_renderStarted (Call :: Rest)
          = Lines ++ FCommandCall.ReceivedLines (FCommandCall.Apply S Call).m_renderStarted Rest
        ∧ (FCommandCall.Apply S Call).m_jobCreationFound
            = (S.m_jobCreationFound || Lines.any FLogLine.IsJobCreation)
        ∧ (FCommandCall.Apply S Call).m_dialogConfirmationFound
            = (S.m_dialogConfirmationFound || Lines.any FLogLine.IsDialogConfirmation) := by
  cases Call with
  | Serialize Line =>
      refine ⟨by simp [FCommandCall.Apply, serialize_eq], [Line], ?_, ?_, ?_⟩ <;>
        simp [FCommandCall.Apply, serialize_eq, FCommandCall.ReceivedLines]
  | Update Now RenderLog =>
      obtain ⟨_, _, hT, hR, hJ, hD⟩ := update_records S Now RenderLog
      refine ⟨hT, if S.m_renderStarted then [] else RenderLog, ?_, hJ, hD⟩
      simp only [FCommandCall.Apply, FCommandCall.ReceivedLines, hR]

/-- After a sequence of calls the start time is what it was, and each found-flag is set
exactly when it was set before or `Serialize` received a matching line during the
calls. -/
theorem run_flags (Calls : List FCommandCall) (S : WaitForJobCreationLogCommand) :
    (FCommandCall.Run Calls S).m_startTime = S.m_startTime
    ∧ (FCommandCall.Run Calls S).m_jobCreationFound
        = (S.m_jobCreationFound
          || (FCommandCall.ReceivedLines S.m_renderStarted Calls).any FLogLine.IsJobCreation)
    ∧ (FCommandCall.Run Calls S).m_dialogConfirmationFound
        = (S.m_dialogConfirmationFound
          || (FCommandCall.ReceivedLines S.m_renderStarted Calls).any
              FLogLine.IsDialogConfirmation) := by
  induction Calls generalizing S with
  | nil => simp [FCommandCall.Run, FCommandCall.ReceivedLines]
  | cons Call Rest ih =>
      obtain ⟨hT, Lines, hLines, hJ, hD⟩ := apply_flags S Call Rest
      obtain ⟨hT1, hJ1, hD1⟩ := ih (FCommandCall.Apply S Call)
      simp only [FCommandCall.Run, List.foldl_cons] at hT1 hJ1 hD1 ⊢
      rw [hT1, hJ1, hD1, hT, hJ, hD, hLines]
      simp [Bool.or_assoc]

/-- The state in which the constructor leaves the command. -/
theorem construct_eq (Now : Float) :
    WaitForJobCreationLogCommand.Construct Now
      = { m_startTime := Now, m_jobCreationFound := false, m_dialogConfirmationFound := false,
          m_renderStarted := false, TestResults := [], RenderQueueCalls := 0 } := by
  simp [WaitForJobCreationLogCommand.Construct, WaitForJobCreationLogCommand.UE_LOG,
    serialize_own]

/-- Some line of a list meets the first condition of `Serialize`. -/
theorem any_job_creation_iff (Lines : List FLogLine) :
    Lines.any FLogLine.IsJobCreation = true ↔ ∃ Line ∈ Lines, Line.IsJobCreationMessage := by
  simp only [List.any_eq_true, is_job_creation_iff]

/-- Some line of a list meets the second condition of `Serialize`. -/
theorem any_dialog_confirmation_iff (Lines : List FLogLine) :
    Lines.any FLogLine.IsDialogConfirmation = true
      ↔ ∃ Line ∈ Lines, Line.IsDialogMessage := by
  simp only [List.any_eq_true, is_dialog_confirmation_iff]

/-- The flags after an `Update` that follows a sequence of calls on a new command. -/
theorem flags_at_test (StartTime : Float) (Calls : List FCommandCall) (Now : Float)
    (RenderLog : List FLogLine) :
    (((FCommandCall.Run Calls (WaitForJobCreationLogCommand.Construct StartTime)).Update Now
        RenderLog).1.m_jobCreationFound = true
      ↔ ∃ Line ∈ FCommandCall.ReceivedLines false
          (Calls ++ [FCommandCall.Update Now RenderLog]), Line.IsJobCreationMessage)
    ∧ (((FCommandCall.Run Calls (WaitForJobCreationLogCommand.Construct StartTime)).Update Now
        RenderLog).1.m_dialogConfirmationFound = true
      ↔ ∃ Line ∈ FCommandCall.ReceivedLines false
          (Calls ++ [FCommandCall.Update Now RenderLog]), Line.IsDialogMessage) := by
  obtain ⟨_, hJ, hD⟩ :=
    run_flags (Calls ++ [FCommandCall.Update Now RenderLog])
      (WaitForJobCreationLogCommand.Construct StartTime)
  have hRun : FCommandCall.Run (Calls ++ [FCommandCall.Update Now RenderLog])
      (WaitForJobCreationLogCommand.Construct StartTime)
      = ((FCommandCall.Run Calls (WaitForJobCreationLogCommand.Construct StartTime)).Update Now
          RenderLog).1 := by
    simp [FCommandCall.Run, FCommandCall.Apply]
  rw [hRun] at hJ hD
  rw [hJ, hD, ← any_job_creation_iff, ← any_dialog_confirmation_iff]
  simp [construct_eq]

/-- An `Update` made after the render queue was started receives none of its render log,
so with an earlier `Update` among the calls the lines received up to the flag test are
those received before the call. -/
theorem received_after_started (Now : Float) (RenderLog : List FLogLine)
    (Calls : List FCommandCall) :
    FCommandCall.ReceivedLines true (Calls ++ [FCommandCall.Update Now RenderLog])
      = FCommandCall.ReceivedLines true Calls := by
  induction Calls with
  | nil => simp [FCommandCall.ReceivedLines]
  | cons Call Rest ih =>
      cases Call with
      | Serialize Line => simp [FCommandCall.ReceivedLines, ih]
      | Update Now1 RenderLog1 => simp [FCommandCall.ReceivedLines, ih]

/-- The same, from the construction on: after any calls that contain an `Update`, a
further `Update` adds no received line. -/
theorem received_after_update (Now0 Now : Float) (RenderLog0 RenderLog : List FLogLine)
    (Pre Post : List FCommandCall) (bStarted : Bool) :
    FCommandCall.ReceivedLines bStarted
        ((Pre ++ FCommandCall.Update Now0 RenderLog0 :: Post)
          ++ [FCommandCall.Update Now RenderLog])
      = FCommandCall.ReceivedLines bStarted
          (Pre ++ FCommandCall.Update Now0 RenderLog0 :: Post) := by
  induction Pre generalizing bStarted with
  | nil =>
      rw [List.nil_append, List.cons_append]
      simp only [FCommandCall.ReceivedLines, received_after_started]
  | cons Call Rest ih =>
      rw [List.cons_append, List.cons_append]
      cases Call with
      | Serialize Line => simp only [FCommandCall.ReceivedLines, ih]
      | Update Now1 RenderLog1 => simp only [FCommandCall.ReceivedLines, ih]

/-- C11, as the code has it: for every sequence of calls on a newly constructed command,
the next `Update` records a passing result exactly when, up to the flag test of that
call, `Serialize` has received a job-creation message (category LogPython, text
containing "Job creation result: job-" ignoring case) and a dialog message (category
None, text containing "Message dialog closed" and "Submitted jobs (1)" ignoring case),
in calls made before the `Update` or in calls nested in the `Update` that starts the
render queue; once some `Update` was made, these are the lines received before the call;
over any further calls a found-flag is set exactly when it was set or a matching line
is received, so it is never cleared; and the `Update` records a failing result exactly
when one of the two kinds of message is still missing at the test and the clock reading
minus the reading at construction is greater than 180. -/
theorem C11_update_passes_on_lines_received_before_the_test (StartTime : Float)
    (Calls More : List FCommandCall) (Now : Float) (RenderLog : List FLogLine)
    (Pre Post : List FCommandCall) (Now0 : Float) (RenderLog0 : List FLogLine) :
    (((FCommandCall.Run Calls
          (WaitForJobCreationLogCommand.Construct StartTime)).Update Now RenderLog).1.TestResults
        = (FCommandCall.Run Calls
            (WaitForJobCreationLogCommand.Construct StartTime)).TestResults
          ++ [("Job creation succeeded", true)]
      ↔ (∃ Line ∈ FCommandCall.ReceivedLines false
            (Calls ++ [FCommandCall.Update Now RenderLog]), Line.IsJobCreationMessage)
        ∧ (∃ Line ∈ FCommandCall.ReceivedLines false
            (Calls ++ [FCommandCall.Update Now RenderLog]), Line.IsDialogMessage))
    ∧ FCommandCall.ReceivedLines false
          ((Pre ++ FCommandCall.Update Now0 RenderLog0 :: Post)
            ++ [FCommandCall.Update Now RenderLog])
        = FCommandCall.ReceivedLines false (Pre ++ FCommandCall.Update Now0 RenderLog0 :: Post)
    ∧ ((FCommandCall.Run More
          (FCommandCall.Run Calls
            (WaitForJobCreationLogCommand.Construct StartTime))).m_jobCreationFound = true
      ↔ (FCommandCall.Run Calls
            (WaitForJobCreationLogCommand.Construct StartTime)).m_jobCreationFound = true
        ∨ ∃ Line ∈ FCommandCall.ReceivedLines
            (FCommandCall.Run Calls
              (WaitForJobCreationLogCommand.Construct StartTime)).m_renderStarted More,
            Line.IsJobCreationMessage)
    ∧ ((FCommandCall.Run More
          (FCommandCall.Run Calls
            (WaitForJobCreationLogCommand.Construct StartTime))).m_dialogConfirmationFound
          = true
      ↔ (FCommandCall.Run Calls
            (WaitForJobCreationLogCommand.Construct StartTime)).m_dialogConfirmationFound
            = true
        ∨ ∃ Line ∈ FCommandCall.ReceivedLines
            (FCommandCall.Run Calls
              (WaitForJobCreationLogCommand.Construct StartTime)).m_renderStarted More,
            Line.IsDialogMessage)
    ∧ (((FCommandCall.Run Calls
          (WaitForJobCreationLogCommand.Construct StartTime)).Update Now RenderLog).1.TestResults
        = (FCommandCall.Run Calls
            (WaitForJobCreationLogCommand.Construct StartTime)).TestResults
          ++ [("Job creation succeeded", false)]
      ↔ ¬ ((∃ Line ∈ FCommandCall.ReceivedLines false
              (Calls ++ [FCommandCall.Update Now RenderLog]), Line.IsJobCreationMessage)
          ∧ (∃ Line ∈ FCommandCall.ReceivedLines false
              (Calls ++ [FCommandCall.Update Now RenderLog]), Line.IsDialogMessage))
        ∧ Now - StartTime > Float.ofInt 180) := by
  obtain ⟨hJ, hD⟩ := flags_at_test StartTime Calls Now RenderLog
  obtain ⟨hPass, hFail, _⟩ :=
    update_records (FCommandCall.Run Calls (WaitForJobCreationLogCommand.Construct StartTime))
      Now RenderLog
  obtain ⟨hT, _, _⟩ := run_flags Calls (WaitForJobCreationLogCommand.Construct StartTime)
  obtain ⟨_, hJ1, hD1⟩ :=
    run_flags More (FCommandCall.Run Calls (WaitForJobCreationLogCommand.Construct StartTime))
  refine ⟨?_, received_after_update Now0 Now RenderLog0 RenderLog Pre Post false, ?_, ?_, ?_⟩
  · rw [hPass, hJ, hD]
  · rw [hJ1, Bool.or_eq_true, any_job_creation_iff]
  · rw [hD1, Bool.or_eq_true, any_dialog_confirmation_iff]
  · rw [hFail, hJ, hD, hT, construct_eq]

/-- C11 as stated fails: on a new command that has had no call, an `Update` during
which `RenderQueueWithExecutorInstance` logs a job-creation line and a dialog line
records a passing result, although `Serialize` received no line before that call. -/
theorem C11_first_update_passes_on_its_render_log :
    ¬ (((FCommandCall.Run [] (WaitForJobCreationLogCommand.Construct 0)).Update 0
            [ScenarioJobCreationLine, ScenarioDialogLine]).1.TestResults
          = (FCommandCall.Run [] (WaitForJobCreationLogCommand.Construct 0)).TestResults
            ++ [("Job creation succeeded", true)]
        ↔ (∃ Line ∈ FCommandCall.ReceivedLines false [], Line.IsJobCreationMessage)
          ∧ (∃ Line ∈ FCommandCall.ReceivedLines false [], Line.IsDialogMessage)) := by
  have hJob : ScenarioJobCreationLine.IsJobCreation = true := by decide
  have hDialog : ScenarioDialogLine.IsDialogConfirmation = true := by decide
  obtain ⟨hJ, hD⟩ :=
    flags_at_test 0 [] 0 [ScenarioJobCreationLine, ScenarioDialogLine]
  obtain ⟨hPass, _⟩ :=
    update_records (FCommandCall.Run [] (WaitForJobCreationLogCommand.Construct 0)) 0
      [ScenarioJobCreationLine, ScenarioDialogLine]
  intro hClaim
  have hPassed := hPass.mpr
    ⟨hJ.mpr ⟨ScenarioJobCreationLine, by simp [FCommandCall.ReceivedLines],
        (is_job_creation_iff _).mp hJob⟩,
      hD.mpr ⟨ScenarioDialogLine, by simp [FCommandCall.ReceivedLines],
        (is_dialog_confirmation_iff _).mp hDialog⟩⟩
  obtain ⟨⟨Line, hMem, _⟩, _⟩ := hClaim.mp hPassed
  simp [FCommandCall.ReceivedLines] at hMem

/-! ## The attachment array in template mode -/

/-- C12: for a property handle without an outer job, `CustomizeHeader` makes a handler
without a job and with an empty set and binds `OnIsEnabled` to the data-asset query on it;
that handler answers true for every path, and the enabled state built from the callback
(header row and array elements) is true for every state of the jobs, also after any
number of `CustomizeChildren` calls on the customization, although the handler that
`FDeadlineCloudAttachmentDetailsCustomization::CustomizeChildren` made for the enclosing
struct, a separate one, has the same property's path disabled. -/
theorem C12_template_array_callback_true {FName : Type} [DecidableEq FName]
    (Handle StructHandle ShowAutoDetectedHandle PathsHandle : IPropertyHandle FName)
    (Heap : JobHeap FName) (n : Nat)
    (hNoJob : FPropertyAvailabilityHandler.GetOuterJob Handle = none)
    (hStructNoJob : FPropertyAvailabilityHandler.GetOuterJob StructHandle = none) :
    (FDeadlineCloudAttachmentArrayCustomization.CustomizeHeader Handle).PropertyOverrideHandler
        = FPropertyAvailabilityHandler.Construct none
    ∧ (FDeadlineCloudAttachmentArrayCustomization.CustomizeHeader Handle).ArrayBuilder.OnIsEnabled
        = some (FIsEnabledLambda.HeaderDataAsset Handle.PathName)
    ∧ (∀ q : FName,
        (FDeadlineCloudAttachmentArrayCustomization.CustomizeHeader
          Handle).PropertyOverrideHandler.IsPropertyRowEnabledInDataAsset q = true)
    ∧ (FDeadlineCloudAttachmentArrayCustomization.CustomizeHeader Handle).IsHeaderEnabled Heap
        = some true
    ∧ (FDeadlineCloudAttachmentArrayCustomization.CustomizeChildren^[n]
          (FDeadlineCloudAttachmentArrayCustomization.CustomizeHeader Handle)).IsHeaderEnabled
          Heap = some true
    ∧ (FDeadlineCloudAttachmentDetailsCustomization.CustomizeChildren StructHandle
          ShowAutoDetectedHandle PathsHandle
          Handle).PropertyOverrideHandler.IsPropertyRowEnabledInDataAsset Handle.PathName
        = false := by
  have hIter : ∀ (k : Nat) (C : FDeadlineCloudAttachmentArrayCustomization FName),
      FDeadlineCloudAttachmentArrayCustomization.CustomizeChildren^[k] C = C := by
    intro k
    induction k with
    | zero => intro C; rfl
    | succ k ih =>
        intro C
        rw [Function.iterate_succ_apply]
        exact ih _
  have hHeader :
      (FDeadlineCloudAttachmentArrayCustomization.CustomizeHeader Handle).IsHeaderEnabled Heap
        = some true := by
    simp [FDeadlineCloudAttachmentArrayCustomization.CustomizeHeader, hNoJob,
      FDeadlineCloudAttachmentArrayCustomization.IsHeaderEnabled,
      FDeadlineCloudAttachmentArrayBuilder.IsEnabled, FIsEnabledLambda.Execute,
      FPropertyAvailabilityHandler.Construct,
      FPropertyAvailabilityHandler.IsPropertyRowEnabledInDataAsset]
  refine ⟨?_, ?_, ?_, hHeader, ?_, ?_⟩
  · simp [FDeadlineCloudAttachmentArrayCustomization.CustomizeHeader, hNoJob]
  · simp [FDeadlineCloudAttachmentArrayCustomization.CustomizeHeader, hNoJob,
      FDeadlineCloudAttachmentArrayBuilder.MakeInstance]
  · intro q
    simp [FDeadlineCloudAttachmentArrayCustomization.CustomizeHeader, hNoJob,
      FPropertyAvailabilityHandler.Construct,
      FPropertyAvailabilityHandler.IsPropertyRowEnabledInDataAsset]
  · rw [hIter]
    exact hHeader
  · simp [FDeadlineCloudAttachmentDetailsCustomization.CustomizeChildren, hStructNoJob,
      FPropertyAvailabilityHandler.DisableRowInDataAsset,
      FPropertyAvailabilityHandler.IsPropertyRowEnabledInDataAsset, IDetailPropertyRow.Default]

/-- C12 at a concrete input: the `AutoDetected` array of the attachment struct `InputFiles`
of a data asset. -/
theorem C12_template_array_callback_true_witness :
    FPropertyAvailabilityHandler.GetOuterJob
        (ScenarioHandle "InputFiles.AutoDetected" (some "Attachments") []) = none
    ∧ FPropertyAvailabilityHandler.GetOuterJob
        (ScenarioHandle "InputFiles" (some "Attachments") [UObject.Other]) = none
    ∧ (FDeadlineCloudAttachmentArrayCustomization.CustomizeHeader
        (ScenarioHandle "InputFiles.AutoDetected" (some "Attachments") [])).IsHeaderEnabled
        ScenarioHeap = some true :=
  ⟨rfl, rfl,
    (C12_template_array_callback_true
      (ScenarioHandle "InputFiles.AutoDetected" (some "Attachments") [])
      (ScenarioHandle "InputFiles" (some "Attachments") [UObject.Other])
      (ScenarioHandle "InputFiles.bShowAutoDetected" (some "Attachments") [])
      (ScenarioHandle "InputFiles.Files" (some "Attachments") [])
      ScenarioHeap 2 rfl rfl).2.2.2.1⟩

/-! ## The group a row is added to -/

/-- In job mode, where `CreatedCategories` holds only the base group under the struct
name, a child with `Category` metadata gets the base group, and no group is added. -/
theorem select_group_job_mode {FName : Type} [DecidableEq FName] (j : JobPtr)
    (StructName Cat : FName) (ChildHandle : IPropertyHandle FName)
    (Groups : List (IDetailGroup FName)) (Rows : List (Nat × IDetailPropertyRow FName))
    (hCat : ChildHandle.Category = some Cat) :
    FDeadlineCloudJobPresetDetailsCustomization.SelectGroup (some j) StructName ChildHandle
        { Groups := Groups, PropertyRows := Rows, CreatedCategories := [(StructName, 0)] }
      = Except.ok (some 0,
          { Groups := Groups, PropertyRows := Rows, CreatedCategories := [(StructName, 0)] }) := by
  by_cases hEq : Cat = StructName
  · simp [FDeadlineCloudJobPresetDetailsCustomization.SelectGroup, hCat, hEq, List.lookup]
  · have hNe : (Cat == StructName) = false := by simpa using hEq
    simp [FDeadlineCloudJobPresetDetailsCustomization.SelectGroup, hCat, List.lookup, hNe]

/-- In template mode a child with `Category` metadata gets the group registered for its
category: the one already registered if there is one (nothing changes), else a group
added at the end of the builder's groups; afterwards that group is the one registered
for the category. -/
theorem select_group_template_mode {FName : Type} [DecidableEq FName]
    (StructName Cat : FName) (ChildHandle : IPropertyHandle FName)
    (S : FChildBuilderState FName) (hCat : ChildHandle.Category = some Cat) :
    ∃ g S1,
      FDeadlineCloudJobPresetDetailsCustomization.SelectGroup none StructName ChildHandle S
        = Except.ok (some g, S1)
      ∧ S1.CreatedCategories.lookup Cat = some g
      ∧ (∀ g0, S.CreatedCategories.lookup Cat = some g0 → g = g0 ∧ S1 = S)
      ∧ (S.CreatedCategories.lookup Cat = none →
          g = S.Groups.length
          ∧ S1.Groups = S.Groups ++ [{ GroupName := StructName, bExpanded := true }]) := by
  cases hF : S.CreatedCategories.lookup Cat with
  | some g0 =>
      refine ⟨g0, S, ?_, hF, ?_, ?_⟩
      · simp [FDeadlineCloudJobPresetDetailsCustomization.SelectGroup, hCat, hF]
      · intro g1 h1
        simp only [Option.some.injEq] at h1
        exact ⟨h1, rfl⟩
      · intro h
        simp at h
  | none =>
      refine ⟨S.Groups.length,
        { S with
          Groups := S.Groups ++ [{ GroupName := StructName, bExpanded := true }]
          CreatedCategories :=
            (Cat, S.Groups.length) ::
              S.CreatedCategories.filter (fun kv => decide (kv.1 ≠ Cat)) }, ?_, ?_, ?_, ?_⟩
      · simp [FDeadlineCloudJobPresetDetailsCustomization.SelectGroup, hCat, hF]
      · simp [List.lookup]
      · intro g0 h
        simp at h
      · intro _
        exact ⟨rfl, rfl⟩

/-- C13, the code at the failing input: for a child without `Category` metadata, in either
mode and whatever was built before, the selected `GroupToUse` is null at the point where
`AddPropertyRow` is called on it, and the loop body stops there with a call through the
null pointer; so it is for the first child of the scenario struct, in template mode and
in job mode. -/
theorem C13_category_less_child_has_null_group :
    (∀ (FName : Type) [DecidableEq FName] (OuterJob : Option JobPtr)
        (Handler : FPropertyAvailabilityHandler FName) (StructName : FName)
        (ChildHandle : IPropertyHandle FName) (S : FChildBuilderState FName),
        FDeadlineCloudJobPresetDetailsCustomization.SelectGroup OuterJob StructName
            { ChildHandle with Category := none } S = Except.ok (none, S)
        ∧ FDeadlineCloudJobPresetDetailsCustomization.LoopBody OuterJob Handler StructName
            { ChildHandle with Category := none } S
          = Except.error EFault.NullGroupDereference)
    ∧ FDeadlineCloudJobPresetDetailsCustomization.LoopBody none
        (FPropertyAvailabilityHandler.Construct none) "JobPresetStruct"
        (ScenarioHandle "JobPresetStruct.Name" none [])
        { Groups := [], PropertyRows := [], CreatedCategories := [] }
      = Except.error EFault.NullGroupDereference
    ∧ FDeadlineCloudJobPresetDetailsCustomization.LoopBody (some 7)
        (FPropertyAvailabilityHandler.Construct (some 7)) "JobPresetStruct"
        (ScenarioHandle "JobPresetStruct.Name" none [UObject.Job 7])
        { Groups := [{ GroupName := "JobPresetStruct", bExpanded := false }]
          PropertyRows := []
          CreatedCategories := [("JobPresetStruct", 0)] }
      = Except.error EFault.NullGroupDereference := by
  refine ⟨?_, rfl, rfl⟩
  intro FName _ OuterJob Handler StructName ChildHandle S
  refine ⟨rfl, ?_⟩
  unfold FDeadlineCloudJobPresetDetailsCustomization.LoopBody
  rw [never_hidden]
  rfl

end DeadlineCloud
